import Mathlib

/-
Verification of the contact extraction core of ccextract (ccextract.py).

The development shallowly embeds the record reconstruction pipeline:
label resolution, multi-value aggregation into address and IM buckets,
vCard serialization for contacts and groups, filename derivation and the
collision loop of the file writer.  SQLite cell values are modelled by an
explicit dynamic type and Python-level failures (AttributeError and
friends) by an Except monad, so that the embedded functions follow the
Python source line by line.
-/

set_option maxRecDepth 8000
set_option maxHeartbeats 2000000

/-- Errors raised by the Python runtime inside the embedded fragments
(programmingError stands for sqlite3.ProgrammingError). -/
inductive PyErr where
  | attributeError
  | typeError
  | valueError
  | indexError
  | keyError
  | programmingError
deriving DecidableEq, Repr

/-- A dynamically typed SQLite cell value as surfaced by the sqlite3 module:
NULL, INTEGER, REAL (modelled as a rational) or TEXT. -/
inductive Sql where
  | null
  | int (i : Int)
  | real (q : ℚ)
  | text (s : String)
deriving DecidableEq, Repr

/-- Python truthiness of a cell value: None, 0, 0.0 and the empty string are falsy. -/
def pyTruthy : Sql → Bool
  | .null => false
  | .int i => i != 0
  | .real q => q != 0
  | .text s => s != ""

/-- Python truthiness of an optional string: None and the empty string are falsy. -/
def truthyO : Option String → Bool
  | none => false
  | some s => s != ""

/-- Decimal digit characters of a natural number, most significant first.
Fuel driven so that it reduces definitionally; fuel n+1 always suffices. -/
def decDigitsAux : Nat → Nat → List Char
  | 0, _ => []
  | fuel+1, n =>
    if n < 10 then [Nat.digitChar n]
    else decDigitsAux fuel (n / 10) ++ [Nat.digitChar (n % 10)]

/-- Decimal rendering of a natural number, as Python str and the percent-d format. -/
def decRepr (n : Nat) : String := ⟨decDigitsAux (n + 1) n⟩

/-- Python str of an integer. -/
def intRepr (i : Int) : String :=
  if i < 0 then "-" ++ decRepr (-i).toNat else decRepr i.toNat

/-- Rendering of a REAL cell as numerator slash denominator.  The claims never
format a REAL value, so the exact float spelling of Python is not reproduced. -/
def ratRepr (q : ℚ) : String := intRepr q.num ++ "/" ++ decRepr q.den

/-- Python str, as used by the percent-s format: str(None) is the text None. -/
def pyStrFmt : Sql → String
  | .null => "None"
  | .int i => intRepr i
  | .real q => ratRepr q
  | .text s => s

/-- Value of a string of decimal digits. -/
def digitsNat (l : List Char) : Nat := l.foldl (fun a c => a * 10 + (c.toNat - 48)) 0

/-- Python int(str): an optional sign followed by at least one digit.
Surrounding whitespace and underscore separators are not modelled. -/
def parseIntText (s : String) : Option Int :=
  let core : List Char → Option Int := fun l =>
    if l ≠ [] ∧ l.all Char.isDigit then some ((digitsNat l : Int)) else none
  match s.data with
  | '-' :: r => (core r).map (fun n => -n)
  | '+' :: r => core r
  | l => core l

/-- Python float(str) on the decimal forms used by the backup schema: optional
sign, integer digits, optional fraction.  Exponent, infinity and nan forms are
not modelled; any non-matching string parses to none, as the surrounding
try/except turns every failure into None. -/
def pyFloatText (s : String) : Option ℚ :=
  let body : List Char → Option ℚ := fun l =>
    let ip := l.takeWhile Char.isDigit
    let rest := l.dropWhile Char.isDigit
    match rest with
    | [] => if ip = [] then none else some ((digitsNat ip : ℚ))
    | '.' :: fr =>
      if fr.all Char.isDigit ∧ (ip ≠ [] ∨ fr ≠ []) then
        some ((digitsNat ip : ℚ) + (digitsNat fr : ℚ) / ((10 : ℚ) ^ fr.length))
      else none
    | _ => none
  match s.data with
  | '-' :: r => (body r).map (fun q => -q)
  | '+' :: r => body r
  | l => body l

/-- Python float() of a cell value under the try/except of the source:
any failure (a NULL cell, a non-numeric string) yields none. -/
def pyFloatOfSql : Sql → Option ℚ
  | .null => none
  | .int i => some ((i : ℚ))
  | .real q => some q
  | .text s => pyFloatText s

/-- Python int() truncation toward zero of a rational. -/
def ratTrunc (q : ℚ) : Int := Int.tdiv q.num (q.den : Int)

/-- Python int() of a cell value: NULL raises TypeError, a non-numeric
string raises ValueError. -/
def pyInt : Sql → Except PyErr Int
  | .null => .error .typeError
  | .int i => .ok i
  | .real q => .ok (ratTrunc q)
  | .text s =>
    match parseIntText s with
    | some i => .ok i
    | none => .error .valueError

/-- Proleptic Gregorian date (year, month, day) of a day count from 1970-01-01,
the standard civil-from-days algorithm.  Python datetime arithmetic uses the
same proleptic Gregorian calendar. -/
def civilFromDays (z0 : Int) : Int × Int × Int :=
  let z := z0 + 719468
  let era := Int.fdiv z 146097
  let doe := z - era * 146097
  let yoe := Int.fdiv (doe - Int.fdiv doe 1460 + Int.fdiv doe 36524 - Int.fdiv doe 146096) 365
  let y := yoe + era * 400
  let doy := doe - (365 * yoe + Int.fdiv yoe 4 - Int.fdiv yoe 100)
  let mp := Int.fdiv (5 * doy + 2) 153
  let d := doy - Int.fdiv (153 * mp + 2) 5 + 1
  let m := mp + (if mp < 10 then 3 else -9)
  (y + (if m ≤ 2 then 1 else 0), m, d)

/-- EPOCH + timedelta(seconds=s) for EPOCH = 2001-01-01T00:00:00: the date part
advances by floor(s / 86400) days; 11323 days lie between 1970-01-01 and
2001-01-01. -/
def dateOfEpochSeconds (s : Int) : Int × Int × Int :=
  civilFromDays (11323 + Int.fdiv s 86400)

/-- Zero padding to the given width, the percent-0Nd format for nonnegative
values (datetime year, month and day are always positive here). -/
def zfill (w : Nat) (i : Int) : String :=
  let d := decDigitsAux (i.toNat + 1) i.toNat
  ⟨List.replicate (w - d.length) '0' ++ d⟩

/-- The percent-04d-02d-02d date rendering of the BDAY and ANNIVERSARY lines. -/
def fmtYMD (d : Int × Int × Int) : String := zfill 4 d.1 ++ zfill 2 d.2.1 ++ zfill 2 d.2.2

/-- Comma escaping on characters: the Python replace of a comma by
backslash comma. -/
def escCommaChars (l : List Char) : List Char :=
  l.flatMap (fun c => if c = ',' then ['\\', ','] else [c])

/-- The value.replace of a comma by backslash comma. -/
def escapeCommas (s : String) : String := ⟨escCommaChars s.data⟩

/-- The replace of a newline character by the two characters backslash n. -/
def nlEsc (l : List Char) : List Char :=
  l.flatMap (fun c => if c = '\n' then ['\\', 'n'] else [c])

/-- The replace of a carriage return by the empty string. -/
def crStrip (l : List Char) : List Char := l.filter (fun c => c != '\r')

/-- The per-line cleanup applied to every assembled vCard line:
replace newline by literal backslash n, then strip carriage returns. -/
def lineFixData (l : List Char) : List Char := crStrip (nlEsc l)

/-- String form of the per-line cleanup. -/
def pyLineFix (s : String) : String := ⟨lineFixData s.data⟩

/-- Python str.lower, restricted to the ASCII lowering of Char.toLower;
the label tokens of the backup schema are ASCII. -/
def pyLower (s : String) : String := ⟨s.data.map Char.toLower⟩

/-- Label postprocessing: a resolved label starting with the decorative
bracket prefix has its first and last four characters removed and is
lowercased; any other label is kept verbatim.  The source only tests the
prefix of the pattern. -/
def bracketStrip (s : String) : String :=
  if "_$!<".data.isPrefixOf s.data then pyLower ⟨(s.data.take (s.data.length - 4)).drop 4⟩
  else s

/-- The rowid key a cell value reaches through the parameter binding
str(cell) compared against an INTEGER-affinity rowid: an integer matches
itself, a fully numeric text coerces to the integer it spells, anything
else matches no row.  (A REAL would coerce through its float spelling;
that corner is not modelled and treated as no match.) -/
def rowidCoerce : Sql → Option Int
  | .int i => some i
  | .text s => parseIntText s
  | _ => none

/-- One lookup table query by rowid, returning the value column of the
matching row if any. -/
def tabLookup (tab : List (Int × String)) (k : Sql) : Option String :=
  match rowidCoerce k with
  | some i => List.lookup i tab
  | none => none

/-- Label resolution (ccextract.py lines 250-260): a falsy label reference
yields the empty string; otherwise the reference is looked up in
ABMultiValueLabel and the stored value is bracket-stripped; if no row
matches, the raw reference itself is used, which only has the startswith
attribute when it is a string - a dangling non-text reference raises
AttributeError. -/
def resolveLabel (labelTab : List (Int × String)) (lab : Sql) : Except PyErr String :=
  if pyTruthy lab then
    match tabLookup labelTab lab with
    | some v => .ok (bracketStrip v)
    | none =>
      match lab with
      | .text s => .ok (bracketStrip s)
      | _ => .error .attributeError
  else .ok (bracketStrip "")

/-- One ABPerson row as selected by the contact query.  The TEXT columns are
modelled as optional strings (NULL or text); Birthday keeps the full dynamic
type because the source parses it with float(). -/
structure PersonRow where
  rowid : Int
  first : Option String
  last : Option String
  middle : Option String
  prfx : Option String
  suffix : Option String
  nickname : Option String
  birthday : Sql
  jobTitle : Option String
  organization : Option String
  department : Option String
  note : Option String
deriving DecidableEq, Repr

/-- One ABMultiValue row for a contact (record_id is implicit in the grouping
of rows under their contact). -/
structure MVRow where
  uid : Int
  property : Int
  label : Sql
  identifier : Sql
  value : Sql
deriving DecidableEq, Repr

/-- One ABMultiValueEntry row attached to a multi-value row. -/
structure MVEntryRow where
  key : Sql
  value : Sql
deriving DecidableEq, Repr

/-- An address or IM accumulation bucket: the Python three-element list of
a numeric id, an optional label and a sub-field dictionary. -/
structure Bucket where
  bid : Int
  lbl : Option String
  entry : List (String × Sql)
deriving DecidableEq, Repr

/-- The mutable state of the per-contact loop: the vCard lines assembled so
far, the address and IM buckets, and the social-media warning flag. -/
structure CState where
  lines : List String
  address : List Bucket
  im : List Bucket
  skipped : Bool
deriving DecidableEq, Repr

/-- Python dict assignment d[k] = v on an insertion-ordered association list:
overwrite in place when the key exists (keys are unique), append otherwise. -/
def dictSet (d : List (String × Sql)) (k : String) (v : Sql) : List (String × Sql) :=
  match d with
  | [] => [(k, v)]
  | p :: t => if p.1 = k then (k, v) :: t else p :: dictSet t k v

/-- Python dict get with a default. -/
def dictGet (d : List (String × Sql)) (k : String) (dflt : Sql) : Sql :=
  match d.find? (fun p => p.1 == k) with
  | some p => p.2
  | none => dflt

/-- Python list index resolution: negative indices address from the end;
out of range is an IndexError. -/
def pyIdx (len : Nat) (i : Int) : Option Nat :=
  if 0 ≤ i then (if i < (len : Int) then some i.toNat else none)
  else (if 0 ≤ (len : Int) + i then some ((len : Int) + i).toNat else none)

/-- Fuel-driven form of the while loop appending fresh buckets; each step
appends one bucket built from the current length. -/
def padList (mk : Nat → Bucket) : List Bucket → Nat → List Bucket
  | a, 0 => a
  | a, n+1 => padList mk (a ++ [mk a.length]) n

/-- The while len(buckets) <= idx loop: append fresh buckets until the list
is long enough; a negative index appends nothing. -/
def padTo (mk : Nat → Bucket) (a : List Bucket) (target : Int) : List Bucket :=
  padList mk a (target + 1 - (a.length : Int)).toNat

/-- A fresh address bucket: the source stores len(address) - 1 as its id. -/
def mkAddrBucket (len : Nat) : Bucket := ⟨(len : Int) - 1, none, []⟩

/-- A fresh IM bucket: the source stores len(im) as its id. -/
def mkIMBucket (len : Nat) : Bucket := ⟨(len : Int), none, []⟩

/-- Accumulate one contribution into an index-keyed bucket list: convert the
identifier with int(), pad the list, set the label if still unset, and merge
the sub-field under its key. -/
def bucketUpdate (mk : Nat → Bucket) (buckets : List Bucket) (ident : Sql)
    (vt svt : String) (v : Sql) : Except PyErr (List Bucket) :=
  match pyInt ident with
  | .error e => .error e
  | .ok bidx =>
    let a := padTo mk buckets bidx
    match pyIdx a.length bidx with
    | none => .error .indexError
    | some j =>
      let b := a.getD j (mk 0)
      let b := if b.lbl = none then { b with lbl := some vt } else b
      let b := { b with entry := dictSet b.entry svt v }
      .ok (a.set j b)

/-- Append one line to the assembled vCard. -/
def addLine (st : CState) (l : String) : CState := { st with lines := st.lines ++ [l] }

/-- The ANNIVERSARY line: a TYPE parameter is added unless the lowercased
label already reads anniversary; the date is EPOCH plus the truncated
seconds offset. -/
def annivLine (vt : String) (q : ℚ) : String :=
  "ANNIVERSARY" ++ (if pyLower vt ≠ "anniversary" then ";TYPE=\"" ++ vt ++ "\"" else "")
    ++ ":" ++ fmtYMD (dateOfEpochSeconds (ratTrunc q))

/-- The RELATED line applies value.replace on the raw cell value, which only
exists for a text cell: a truthy non-text value raises AttributeError. -/
def relLine (vt : String) (v : Sql) : Except PyErr String :=
  match v with
  | .text s => .ok ("RELATED;TYPE=" ++ vt ++ ";VALUE=text:" ++ escapeCommas s)
  | _ => .error .attributeError

/-- The effective value of one loop iteration: the sub-entry value when a
sub-entry row is present, otherwise the stringified top value. -/
def mveValue (topv : String) : Option MVEntryRow → Sql
  | none => .text topv
  | some e => e.value

/-- The resolved sub-field key name of one loop iteration: the value column of
the ABMultiValueEntryKey row reached by the key reference, or the empty
default when no row matches (the rowid is unique, so the fetch returns at
most one row and the innermost loop runs exactly once). -/
def mveSvt (keyTab : List (Int × String)) : Option MVEntryRow → String
  | none => ""
  | some e => (tabLookup keyTab e.key).getD ""

/-- Processing of one (multi-value row, optional sub-entry) pair, the body of
the inner loops of ccextract.py lines 271-338. -/
def processMVE (keyTab : List (Int × String)) (vt topv : String) (r : MVRow)
    (st : CState) (mve : Option MVEntryRow) : Except PyErr CState :=
  let value : Sql := mveValue topv mve
  let svt : String := mveSvt keyTab mve
  let st1 := if r.property == 3 && pyTruthy value then
      addLine st ("TEL;TYPE=" ++ vt ++ ":" ++ pyStrFmt value) else st
  let st2 := if r.property == 4 && pyTruthy value then
      addLine st1 ("EMAIL;TYPE=" ++ vt ++ ":" ++ pyStrFmt value) else st1
  match (if r.property == 5 && pyTruthy value then
      bucketUpdate mkAddrBucket st2.address r.identifier vt svt value
    else .ok st2.address) with
  | .error e => .error e
  | .ok addr3 =>
    let st3 := { st2 with address := addr3 }
    let st4 := match pyFloatOfSql value with
      | none => st3
      | some q => if r.property == 12 then addLine st3 (annivLine vt q) else st3
    match (if r.property == 13 && pyTruthy value then
        bucketUpdate mkIMBucket st4.im r.identifier vt svt value
      else .ok st4.im) with
    | .error e => .error e
    | .ok im5 =>
      let st5 := { st4 with im := im5 }
      let st6 := if r.property == 22 && pyTruthy value then
          addLine st5 ("URL;TYPE=" ++ vt ++ ":" ++ pyStrFmt value) else st5
      match (if r.property == 23 && pyTruthy value then relLine vt value else .ok "") with
      | .error e => .error e
      | .ok rl =>
        let st7 := if r.property == 23 && pyTruthy value then addLine st6 rl else st6
        .ok (if r.property == 46 then { st7 with skipped := true } else st7)

/-- The vCard lines contributed by one (row, optional sub-entry) pair, as a
pure projection of processMVE; for a RELATED row it renders the value through
pyStrFmt, which agrees with the source whenever processMVE succeeds. -/
def mveLines (vt topv : String) (r : MVRow) (mve : Option MVEntryRow) : List String :=
  let value : Sql := mveValue topv mve
  (if r.property == 3 && pyTruthy value then ["TEL;TYPE=" ++ vt ++ ":" ++ pyStrFmt value] else [])
  ++ (if r.property == 4 && pyTruthy value then ["EMAIL;TYPE=" ++ vt ++ ":" ++ pyStrFmt value] else [])
  ++ (match pyFloatOfSql value with
      | none => []
      | some q => if r.property == 12 then [annivLine vt q] else [])
  ++ (if r.property == 22 && pyTruthy value then ["URL;TYPE=" ++ vt ++ ":" ++ pyStrFmt value] else [])
  ++ (if r.property == 23 && pyTruthy value then
        ["RELATED;TYPE=" ++ vt ++ ";VALUE=text:" ++ escapeCommas (pyStrFmt value)] else [])

/-- The sub-entry list iterated for one multi-value row: the fetched entries,
or a single None when the row has no entry rows. -/
def mvesOf (es : List MVEntryRow) : List (Option MVEntryRow) :=
  if es.isEmpty then [none] else es.map some

/-- Processing of one multi-value row with its sub-entry rows: resolve the
label, compute the stringified top value, and fold the entry loop. -/
def processRow (labelTab keyTab : List (Int × String)) (st : CState)
    (rc : MVRow × List MVEntryRow) : Except PyErr CState :=
  match resolveLabel labelTab rc.1.label with
  | .error e => .error e
  | .ok vt =>
    let topv := if pyTruthy rc.1.value then pyStrFmt rc.1.value else ""
    (mvesOf rc.2).foldlM (processMVE keyTab vt topv rc.1) st

/-- The vCard lines contributed by one multi-value row, in arrival order. -/
def rowLinesPure (labelTab : List (Int × String)) (rc : MVRow × List MVEntryRow) : List String :=
  match resolveLabel labelTab rc.1.label with
  | .error _ => []
  | .ok vt =>
    let topv := if pyTruthy rc.1.value then pyStrFmt rc.1.value else ""
    (mvesOf rc.2).flatMap (mveLines vt topv rc.1)

/-- Percent-s of an optional string: None renders as the text None. -/
def fmtO : Option String → String
  | none => "None"
  | some s => s

/-- Space joining, the str.join of the source. -/
def joinSp : List String → String
  | [] => ""
  | [x] => x
  | x :: xs => x ++ " " ++ joinSp xs

/-- The truthy name components in FN order: prefix, first, middle, last,
suffix. -/
def presentFN (p : PersonRow) : List String :=
  [p.prfx, p.first, p.middle, p.last, p.suffix].filterMap
    (fun o => if truthyO o then some (o.getD "") else none)

/-- The formatted display name: the truthy components space-joined. -/
def fullName (p : PersonRow) : String := joinSp (presentFN p)

/-- Organization and department combination: semicolon-joined when both are
truthy, otherwise whichever is truthy, otherwise None. -/
def orgField (p : PersonRow) : Option String :=
  if truthyO p.organization && truthyO p.department then
    some (p.organization.getD "" ++ ";" ++ p.department.getD "")
  else if truthyO p.organization then p.organization
  else if truthyO p.department then p.department
  else none

/-- The BDAY segment: the Birthday cell is parsed with float() under
try/except; a parse failure or NULL yields no line, otherwise the truncated
offset is added to the epoch and rendered as YYYYMMDD. -/
def bdaySeg (p : PersonRow) : List String :=
  match pyFloatOfSql p.birthday with
  | none => []
  | some q => ["BDAY:" ++ fmtYMD (dateOfEpochSeconds (ratTrunc q))]

/-- The scalar head of a contact vCard, ccextract.py lines 186-242: metadata,
UID, optional N, mandatory FN, then optional NICKNAME, BDAY, TITLE, ORG and
NOTE with comma escaping. -/
def scalarLines (uid : String) (p : PersonRow) : List String :=
  ["BEGIN:VCARD", "VERSION:4.0", "UID:urn:uuid:" ++ uid]
  ++ (if truthyO p.first || truthyO p.last || truthyO p.middle || truthyO p.prfx || truthyO p.suffix then
        ["N:" ++ fmtO p.last ++ ";" ++ fmtO p.first ++ ";" ++ fmtO p.middle ++ ";"
          ++ fmtO p.prfx ++ ";" ++ fmtO p.suffix]
      else [])
  ++ ["FN:" ++ fullName p]
  ++ (if truthyO p.nickname then ["NICKNAME:" ++ escapeCommas (p.nickname.getD "")] else [])
  ++ bdaySeg p
  ++ (if truthyO p.jobTitle then ["TITLE:" ++ escapeCommas (p.jobTitle.getD "")] else [])
  ++ (match orgField p with
      | none => []
      | some o => ["ORG:" ++ escapeCommas o])
  ++ (if truthyO p.note then ["NOTE:" ++ escapeCommas (p.note.getD "")] else [])

/-- Collect the texts of a list of cell values; a non-text element raises
TypeError as the str.join of the source would. -/
def textsOnly : List Sql → Except PyErr (List String)
  | [] => .ok []
  | .text s :: rest => (textsOnly rest).map (fun l => s :: l)
  | _ :: _ => .error .typeError

/-- Separator joining, the sep.join of the source. -/
def sepJoin (sep : String) : List String → String
  | [] => ""
  | [x] => x
  | x :: xs => x ++ sep ++ sepJoin sep xs

/-- sep.join over raw cell values. -/
def joinSqls (sep : String) (l : List Sql) : Except PyErr String :=
  (textsOnly l).map (sepJoin sep)

/-- The fixed component order of an ADDR line. -/
def addrKeys : List String := ["Apartment", "Floor", "Street", "ZIP", "City", "State", "Country"]

/-- The fixed component order of an IMPP line. -/
def imKeys : List String := ["service", "username"]

/-- The bucket emission loops of ccextract.py lines 345-370.  A bucket with
no label and no merged fields raises ValueError; the warning handler then
reads e.message, an attribute Python 3 exceptions do not have, so the
handler itself raises AttributeError and the loop aborts instead of
continuing. -/
def emitBuckets (tag sep : String) (keys : List String) (lines : List String) :
    List Bucket → Except PyErr (List String)
  | [] => .ok lines
  | b :: bs =>
    if b.lbl = none ∧ b.entry = [] then .error .attributeError
    else
      match joinSqls sep (keys.map (fun k => dictGet b.entry k (.text ""))) with
      | .error e => .error e
      | .ok content => emitBuckets tag sep keys (lines ++ [tag ++ fmtO b.lbl ++ ":" ++ content]) bs

/-- Serialization of one contact, ccextract.py lines 183-376: the scalar head,
the multi-value loop, the ADDR and IMPP emission loops, END, and the final
per-line newline and carriage-return cleanup. -/
def serializeContact (labelTab keyTab : List (Int × String)) (uid : String)
    (p : PersonRow) (rows : List (MVRow × List MVEntryRow)) : Except PyErr (List String) :=
  match rows.foldlM (processRow labelTab keyTab) (CState.mk (scalarLines uid p) [] [] false) with
  | .error e => .error e
  | .ok st =>
    match emitBuckets "ADDR;TYPE=" ";" addrKeys st.lines st.address with
    | .error e => .error e
    | .ok ls =>
      match emitBuckets "IMPP;TYPE=" ":" imKeys ls st.im with
      | .error e => .error e
      | .ok ls => .ok ((ls ++ ["END:VCARD"]).map pyLineFix)

/-- The base filename of a contact, ccextract.py lines 379-381: first plus
space when truthy, middle plus space when truthy, last when truthy, with the
UNNAMED placeholder when the concatenation is empty. -/
def baseFn (p : PersonRow) : String :=
  let b := (if truthyO p.first then p.first.getD "" ++ " " else "")
        ++ (if truthyO p.middle then p.middle.getD "" ++ " " else "")
        ++ (if truthyO p.last then p.last.getD "" else "")
  if b = "" then "UNNAMED" else b

/-- The candidate filename with a collision counter: base, separator, counter,
extension. -/
def mkCand (base : String) (c : Nat) : String := base ++ " - " ++ decRepr c ++ ".vcf"

/-- The collision while loop: advance the counter while the candidate exists.
Fuel driven; the caller passes enough fuel for a free name to be reached. -/
def collisionLoop (fs : List String) (base : String) : Nat → Nat → String
  | 0, cid => mkCand base cid
  | fuel+1, cid => if mkCand base cid ∈ fs then collisionLoop fs base fuel (cid + 1) else mkCand base cid

/-- Filename choice of the file writer, ccextract.py lines 382-388: the plain
name when free, otherwise the first free counter-suffixed name starting at 2.
The group writer (lines 431-437) runs the same loop inside the groups
directory. -/
def chooseFilename (fs : List String) (base : String) : String :=
  let fn := base ++ ".vcf"
  if fn ∈ fs then collisionLoop fs base (fs.length + 1) 2 else fn

/-- Sequential writes into one directory: each record picks its name against
the files present at that moment and the written file joins the directory. -/
def runWrites (fs : List String) : List String → List String
  | [] => []
  | b :: bs =>
    let p := chooseFilename fs b
    p :: runWrites (p :: fs) bs

/-- Python dict assignment for the integer-keyed identifier map: overwrite in
place when the key exists (keys are unique), append otherwise. -/
def dictSetI (d : List (Int × String)) (k : Int) (v : String) : List (Int × String) :=
  match d with
  | [] => [(k, v)]
  | p :: t => if p.1 = k then (k, v) :: t else p :: dictSetI t k v

/-- The identifier map populated during contact processing: uid_map[row_id] = uid
for each contact row in order, with the freshly generated uuid supplied as an
input stream. -/
def buildUidMap (persons : List PersonRow) (uids : List String) : List (Int × String) :=
  (persons.zip uids).foldl (fun m pu => dictSetI m pu.1.rowid pu.2) []

/-- One ABGroup row. -/
structure GroupRow where
  rowid : Int
  name : Option String
deriving DecidableEq, Repr

/-- Serialization of one group, ccextract.py lines 398-425: an unnamed group
is rejected (none, no file) before its members are fetched.  The member query
at line 418 passes group_id = str(ROWID) bare, not wrapped in a list, so
sqlite3 binds the characters of the string as the parameters: exactly one
character (a single-digit rowid, coerced back to the integer through the
INTEGER affinity of the group_id column) yields the membership rows, while
any other length raises sqlite3.ProgrammingError (incorrect number of
bindings) and the run aborts.  On the surviving path one MEMBER line is
emitted per membership row in order, each reading uid_map[member_id], which
raises KeyError when the member was never processed as a contact. -/
def serializeGroup (uidMap : List (Int × String)) (g : GroupRow) (members : List Int) :
    Except PyErr (Option (List String)) :=
  if truthyO g.name then
    if (intRepr g.rowid).data.length = 1 then
      match members.foldlM (fun acc m =>
          match List.lookup m uidMap with
          | some u => Except.ok (acc ++ ["MEMBER:urn:uuid:" ++ u])
          | none => Except.error PyErr.keyError) ([] : List String) with
      | .error e => .error e
      | .ok memberLines =>
        .ok (some ((["BEGIN:VCARD", "VERSION:4.0", "KIND:group", "FN:" ++ g.name.getD ""]
          ++ memberLines ++ ["END:VCARD"]).map pyLineFix))
    else .error .programmingError
  else .ok none

/-- The base filename of a group: its name, with the UNNAMED placeholder when
empty (unreachable, unnamed groups are rejected earlier). -/
def groupBaseFn (g : GroupRow) : String :=
  let b := g.name.getD ""
  if b = "" then "UNNAMED" else b

/-- Scanner checking that every comma of a character list is immediately
preceded by a backslash: a backslash followed by a comma consumes the pair,
a bare comma fails, anything else advances. -/
def commaSafe : List Char → Bool
  | [] => true
  | [c] => c ≠ ','
  | c :: d :: rest =>
    if c = ',' then false
    else if c = '\\' ∧ d = ',' then commaSafe rest
    else commaSafe (d :: rest)

/-- The per-character effect of comma escaping followed by the per-line
cleanup: a comma becomes backslash comma, a newline becomes backslash n,
a carriage return disappears, anything else is unchanged. -/
def escFixG (c : Char) : List Char :=
  if c = ',' then ['\\', ','] else if c = '\n' then ['\\', 'n'] else if c = '\r' then [] else [c]

/-- Modelled from the spec: the truthy first, middle and last name components
in that order (the filename basis components). -/
def specNamesPresent (p : PersonRow) : List String :=
  [p.first, p.middle, p.last].filterMap (fun o => if truthyO o then some (o.getD "") else none)

/-- Strip leading and trailing whitespace, the Python str.strip and the
trimming the spec describes. -/
def strTrim (s : String) : String :=
  ⟨((s.data.dropWhile (fun c => c.isWhitespace)).reverse.dropWhile
    (fun c => c.isWhitespace)).reverse⟩

/-- Modelled from the spec: first plus middle plus last name, space-joined,
trimmed of surrounding whitespace, with the UNNAMED placeholder when empty. -/
def specBaseFn (p : PersonRow) : String :=
  let j := strTrim (joinSp (specNamesPresent p))
  if j = "" then "UNNAMED" else j

/-- The filename basis the source actually computes, written in joined form:
the space-joined truthy name components, with a trailing space whenever the
last name is absent but a first or middle name is present, and no trimming;
UNNAMED when empty. -/
def specBaseAmended (p : PersonRow) : String :=
  let j := joinSp (specNamesPresent p)
      ++ (if (truthyO p.first || truthyO p.middle) && !truthyO p.last then " " else "")
  if j = "" then "UNNAMED" else j

/-! ## Basic string and list lemmas -/

theorem sdata_append (a b : String) : (a ++ b).data = a.data ++ b.data := rfl

theorem seq_iff {a b : String} : a = b ↔ a.data = b.data := by
  constructor
  · intro h; rw [h]
  · intro h; cases a; cases b; exact congrArg String.mk h

/-! ## Line decomposition of the contact loop -/

theorem addLine_lines (st : CState) (l : String) :
    (addLine st l).lines = st.lines ++ [l] := rfl

theorem processMVE_ok_lines (keyTab : List (Int × String)) (vt topv : String) (r : MVRow)
    (st st2 : CState) (mve : Option MVEntryRow)
    (h : processMVE keyTab vt topv r st mve = .ok st2) :
    st2.lines = st.lines ++ mveLines vt topv r mve := by
  have hcase : r.property = 3 ∨ r.property = 4 ∨ r.property = 5 ∨ r.property = 12 ∨
      r.property = 13 ∨ r.property = 22 ∨ r.property = 23 ∨ r.property = 46 ∨
      (r.property ≠ 3 ∧ r.property ≠ 4 ∧ r.property ≠ 5 ∧ r.property ≠ 12 ∧
       r.property ≠ 13 ∧ r.property ≠ 22 ∧ r.property ≠ 23 ∧ r.property ≠ 46) := by omega
  unfold processMVE at h
  unfold mveLines
  rcases hcase with hp|hp|hp|hp|hp|hp|hp|hp|hp <;>
  cases hv : mveValue topv mve <;>
  by_cases ht : pyTruthy (mveValue topv mve) = true <;>
  cases hf : pyFloatOfSql (mveValue topv mve) <;>
  (try simp_all [addLine, relLine, pyStrFmt, pyTruthy]) <;>
  (first
    | rfl
    | (solve | simp at h)
    | (obtain rfl := h; simp [addLine, List.append_assoc])
    | (obtain rfl := h.symm; simp [addLine, List.append_assoc])
    | (obtain rfl := Except.ok.inj h; simp [addLine, List.append_assoc])
    | (split at h <;>
        first
          | (solve | simp at h)
          | (obtain rfl := Except.ok.inj h; simp_all [addLine, List.append_assoc])))

theorem foldMVE_ok_lines (keyTab : List (Int × String)) (vt topv : String) (r : MVRow) :
    ∀ (mves : List (Option MVEntryRow)) (st st2 : CState),
      mves.foldlM (processMVE keyTab vt topv r) st = .ok st2 →
      st2.lines = st.lines ++ mves.flatMap (mveLines vt topv r) := by
  intro mves
  induction mves with
  | nil =>
    intro st st2 h
    simp only [List.foldlM_nil, pure] at h
    cases h
    simp
  | cons m ms ih =>
    intro st st2 h
    rw [List.foldlM_cons] at h
    cases hm : processMVE keyTab vt topv r st m with
    | error e => rw [hm] at h; simp [Bind.bind, Except.bind] at h
    | ok st1 =>
      rw [hm] at h
      simp only [Bind.bind, Except.bind] at h
      have h1 := processMVE_ok_lines keyTab vt topv r st st1 m hm
      have h2 := ih st1 st2 h
      simp [h2, h1, List.append_assoc]

theorem processRow_ok_lines (labelTab keyTab : List (Int × String)) (st st2 : CState)
    (rc : MVRow × List MVEntryRow) (h : processRow labelTab keyTab st rc = .ok st2) :
    st2.lines = st.lines ++ rowLinesPure labelTab rc := by
  unfold processRow at h
  unfold rowLinesPure
  cases hl : resolveLabel labelTab rc.1.label with
  | error e => rw [hl] at h; cases h
  | ok vt =>
    rw [hl] at h
    exact foldMVE_ok_lines keyTab vt _ rc.1 (mvesOf rc.2) st st2 h

theorem processRows_ok_lines (labelTab keyTab : List (Int × String)) :
    ∀ (rows : List (MVRow × List MVEntryRow)) (st st2 : CState),
      rows.foldlM (processRow labelTab keyTab) st = .ok st2 →
      st2.lines = st.lines ++ rows.flatMap (rowLinesPure labelTab) := by
  intro rows
  induction rows with
  | nil =>
    intro st st2 h
    simp only [List.foldlM_nil, pure] at h
    cases h
    simp
  | cons rc rcs ih =>
    intro st st2 h
    rw [List.foldlM_cons] at h
    cases hm : processRow labelTab keyTab st rc with
    | error e => rw [hm] at h; simp [Bind.bind, Except.bind] at h
    | ok st1 =>
      rw [hm] at h
      simp only [Bind.bind, Except.bind] at h
      have h1 := processRow_ok_lines labelTab keyTab st st1 rc hm
      have h2 := ih st1 st2 h
      simp [h2, h1, List.append_assoc]

theorem emitBuckets_ok (tag sep : String) (keys : List String) :
    ∀ (bs : List Bucket) (lines out : List String),
      emitBuckets tag sep keys lines bs = .ok out →
      ∃ A, out = lines ++ A ∧ ∀ a ∈ A, ∃ t c, a = tag ++ t ++ ":" ++ c := by
  intro bs
  induction bs with
  | nil =>
    intro lines out h
    cases h
    exact ⟨[], by simp, by simp⟩
  | cons b rest ih =>
    intro lines out h
    unfold emitBuckets at h
    split at h
    · cases h
    · split at h
      · cases h
      · rename_i content hj
        obtain ⟨A, hA, hmem⟩ := ih (lines ++ [tag ++ fmtO b.lbl ++ ":" ++ content]) out h
        refine ⟨(tag ++ fmtO b.lbl ++ ":" ++ content) :: A, by simp [hA], ?_⟩
        intro a ha
        rcases List.mem_cons.mp ha with rfl | ha2
        · exact ⟨fmtO b.lbl, content, by simp [String.append_assoc]⟩
        · exact hmem a ha2

theorem serializeContact_ok (labelTab keyTab : List (Int × String)) (uid : String)
    (p : PersonRow) (rows : List (MVRow × List MVEntryRow)) (ls : List String)
    (h : serializeContact labelTab keyTab uid p rows = .ok ls) :
    ∃ A I, ls = ((scalarLines uid p ++ rows.flatMap (rowLinesPure labelTab) ++ A ++ I)
        ++ ["END:VCARD"]).map pyLineFix
      ∧ (∀ a ∈ A, ∃ t c, a = "ADDR;TYPE=" ++ t ++ ":" ++ c)
      ∧ (∀ b ∈ I, ∃ t c, b = "IMPP;TYPE=" ++ t ++ ":" ++ c) := by
  unfold serializeContact at h
  split at h
  · cases h
  · rename_i st hst
    split at h
    · cases h
    · rename_i ls1 haddr
      split at h
      · cases h
      · rename_i ls2 him
        cases h
        have hlines := processRows_ok_lines labelTab keyTab rows _ st hst
        obtain ⟨A, hA, hAmem⟩ := emitBuckets_ok _ _ _ st.address st.lines ls1 haddr
        obtain ⟨I, hI, hImem⟩ := emitBuckets_ok _ _ _ st.im ls1 ls2 him
        refine ⟨A, I, ?_, hAmem, hImem⟩
        simp [hI, hA, hlines, List.append_assoc]

/-! ## Decimal rendering and the collision loop -/

theorem digitsNat_append_digit (l : List Char) (c : Char) :
    digitsNat (l ++ [c]) = digitsNat l * 10 + (c.toNat - 48) := by
  unfold digitsNat
  rw [List.foldl_append]
  rfl

theorem digitChar_toNat (d : Nat) (h : d < 10) : (Nat.digitChar d).toNat - 48 = d := by
  interval_cases d <;> rfl

theorem digitsNat_decDigitsAux : ∀ (fuel n : Nat), n < fuel →
    digitsNat (decDigitsAux fuel n) = n := by
  intro fuel
  induction fuel with
  | zero => intro n h; omega
  | succ f ih =>
    intro n h
    unfold decDigitsAux
    split
    · rename_i h10
      simp [digitsNat, List.foldl, digitChar_toNat n h10]
    · rename_i h10
      rw [digitsNat_append_digit, ih (n / 10) (by omega), digitChar_toNat (n % 10) (by omega)]
      omega

theorem decRepr_inj {a b : Nat} (h : decRepr a = decRepr b) : a = b := by
  have hd := congrArg String.data h
  simp only [decRepr] at hd
  have ha := digitsNat_decDigitsAux (a + 1) a (by omega)
  have hb := digitsNat_decDigitsAux (b + 1) b (by omega)
  rw [← ha, ← hb, hd]

theorem mkCand_inj (base : String) {a b : Nat} (h : mkCand base a = mkCand base b) : a = b := by
  have hd := congrArg String.data h
  simp only [mkCand, sdata_append, List.append_assoc] at hd
  have h1 := List.append_cancel_left hd
  have h2 := List.append_cancel_left h1
  have h3 := List.append_cancel_right h2
  exact decRepr_inj (seq_iff.mpr h3)

theorem mkCand_ne_plain (base : String) (c : Nat) : mkCand base c ≠ base ++ ".vcf" := by
  intro hh
  have hd := congrArg String.data hh
  simp only [mkCand, sdata_append, List.append_assoc] at hd
  have h1 := List.append_cancel_left hd
  simp at h1

theorem collisionLoop_succ (fs : List String) (base : String) (fuel cid : Nat) :
    collisionLoop fs base (fuel + 1) cid =
      if mkCand base cid ∈ fs then collisionLoop fs base fuel (cid + 1) else mkCand base cid := rfl

theorem collisionLoop_not_mem (fs : List String) (base : String) :
    ∀ (fuel cid : Nat), (∃ k, k < fuel ∧ mkCand base (cid + k) ∉ fs) →
      collisionLoop fs base fuel cid ∉ fs := by
  intro fuel
  induction fuel with
  | zero =>
    rintro cid ⟨k, hk, _⟩
    omega
  | succ f ih =>
    rintro cid ⟨k, hk, hfree⟩
    rw [collisionLoop_succ]
    split
    · rename_i hin
      apply ih (cid + 1)
      cases k with
      | zero => simp at hfree; exact absurd hin hfree
      | succ k2 =>
        refine ⟨k2, by omega, ?_⟩
        have : cid + 1 + k2 = cid + (k2 + 1) := by omega
        rw [this]
        exact hfree
    · rename_i hout
      exact hout

theorem exists_free_cand (fs : List String) (base : String) :
    ∃ k, k < fs.length + 1 ∧ mkCand base (2 + k) ∉ fs := by
  by_contra hc
  push_neg at hc
  have hcard : ((Finset.range (fs.length + 1)).image (fun k => mkCand base (2 + k))).card
      = fs.length + 1 := by
    rw [Finset.card_image_of_injOn]
    · simp
    · intro x _ y _ hxy
      have := mkCand_inj base hxy
      omega
  have hsub : (Finset.range (fs.length + 1)).image (fun k => mkCand base (2 + k))
      ⊆ fs.toFinset := by
    intro x hx
    obtain ⟨k, hk, rfl⟩ := Finset.mem_image.mp hx
    exact List.mem_toFinset.mpr (hc k (Finset.mem_range.mp hk))
  have hle := Finset.card_le_card hsub
  have h2 := fs.toFinset_card_le
  omega

theorem chooseFilename_not_mem (fs : List String) (base : String) :
    chooseFilename fs base ∉ fs := by
  show (if base ++ ".vcf" ∈ fs then collisionLoop fs base (fs.length + 1) 2
    else base ++ ".vcf") ∉ fs
  split
  · exact collisionLoop_not_mem fs base _ 2 (by
      obtain ⟨k, hk, hfree⟩ := exists_free_cand fs base
      exact ⟨k, hk, hfree⟩)
  · rename_i hnot
    exact hnot

theorem runWrites_fresh : ∀ (bases fs : List String),
    (∀ q ∈ runWrites fs bases, q ∉ fs) ∧ (runWrites fs bases).Nodup := by
  intro bases
  induction bases with
  | nil => intro fs; simp [runWrites]
  | cons b bs ih =>
    intro fs
    constructor
    · intro q hq
      unfold runWrites at hq
      rcases List.mem_cons.mp hq with rfl | hq2
      · exact chooseFilename_not_mem fs b
      · intro hqfs
        exact (ih (chooseFilename fs b :: fs)).1 q hq2 (List.mem_cons_of_mem _ hqfs)
    · unfold runWrites
      refine List.nodup_cons.mpr ⟨?_, (ih _).2⟩
      intro hmem
      exact (ih (chooseFilename fs b :: fs)).1 _ hmem (List.mem_cons_self _ _)

theorem mkCand_ne_mkCand (base : String) {a b : Nat} (h : a ≠ b) :
    mkCand base a ≠ mkCand base b := fun hh => h (mkCand_inj base hh)

theorem runWrites_three (fs : List String) (base : String)
    (h1 : base ++ ".vcf" ∉ fs) (h2 : mkCand base 2 ∉ fs) (h3 : mkCand base 3 ∉ fs) :
    runWrites fs [base, base, base] = [base ++ ".vcf", mkCand base 2, mkCand base 3] := by
  have e1 : chooseFilename fs base = base ++ ".vcf" := by
    show (if base ++ ".vcf" ∈ fs then collisionLoop fs base (fs.length + 1) 2
      else base ++ ".vcf") = base ++ ".vcf"
    rw [if_neg h1]
  have e2 : chooseFilename ((base ++ ".vcf") :: fs) base = mkCand base 2 := by
    show (if base ++ ".vcf" ∈ (base ++ ".vcf") :: fs then
        collisionLoop ((base ++ ".vcf") :: fs) base (fs.length + 1 + 1) 2
      else base ++ ".vcf") = mkCand base 2
    rw [if_pos (List.mem_cons_self _ _), collisionLoop_succ]
    rw [if_neg (by
      intro hmem
      rcases List.mem_cons.mp hmem with heq | hmem2
      · exact mkCand_ne_plain base 2 heq
      · exact h2 hmem2)]
  have e3 : chooseFilename (mkCand base 2 :: (base ++ ".vcf") :: fs) base = mkCand base 3 := by
    show (if base ++ ".vcf" ∈ mkCand base 2 :: (base ++ ".vcf") :: fs then
        collisionLoop (mkCand base 2 :: (base ++ ".vcf") :: fs) base (fs.length + 2 + 1) 2
      else base ++ ".vcf") = mkCand base 3
    rw [if_pos (by simp), collisionLoop_succ]
    rw [if_pos (List.mem_cons_self _ _), collisionLoop_succ]
    rw [if_neg (by
      intro hmem
      rcases List.mem_cons.mp hmem with heq | hmem2
      · exact mkCand_ne_mkCand base (by omega) heq
      · rcases List.mem_cons.mp hmem2 with heq2 | hmem3
        · exact mkCand_ne_plain base 3 heq2
        · exact h3 hmem3)]
  show chooseFilename fs base :: runWrites (chooseFilename fs base :: fs) [base, base] = _
  rw [e1]
  show _ :: chooseFilename ((base ++ ".vcf") :: fs) base ::
    runWrites (chooseFilename ((base ++ ".vcf") :: fs) base :: (base ++ ".vcf") :: fs) [base] = _
  rw [e2]
  show _ :: _ :: chooseFilename (mkCand base 2 :: (base ++ ".vcf") :: fs) base ::
    runWrites _ [] = _
  rw [e3]
  rfl

/-! ## Escaping and per-line cleanup lemmas -/

theorem lineFixData_append (a b : List Char) :
    lineFixData (a ++ b) = lineFixData a ++ lineFixData b := by
  simp [lineFixData, nlEsc, crStrip, List.flatMap_append, List.filter_append]

theorem pyLineFix_append (a b : String) :
    pyLineFix (a ++ b) = pyLineFix a ++ pyLineFix b := by
  apply seq_iff.mpr
  simp [pyLineFix, sdata_append, lineFixData_append]

theorem lineFix_no_nl (l : List Char) : '\n' ∉ lineFixData l := by
  intro hmem
  simp only [lineFixData, crStrip, nlEsc, List.mem_filter, List.mem_flatMap] at hmem
  obtain ⟨⟨c, _, hin⟩, -⟩ := hmem
  by_cases hc : c = '\n' <;> simp [hc] at hin
  exact hc hin.symm

theorem lineFix_no_cr (l : List Char) : '\r' ∉ lineFixData l := by
  intro hmem
  simp only [lineFixData, crStrip, List.mem_filter] at hmem
  simp at hmem

theorem lineFix_escComma_eq (l : List Char) :
    lineFixData (escCommaChars l) = l.flatMap escFixG := by
  induction l with
  | nil => rfl
  | cons c t ih =>
    show lineFixData ((if c = ',' then ['\\', ','] else [c]) ++ escCommaChars t)
      = escFixG c ++ t.flatMap escFixG
    rw [lineFixData_append, ih]
    congr 1
    by_cases h1 : c = ','
    · subst h1; rfl
    · by_cases h2 : c = '\n'
      · subst h2; simp [h1, escFixG]; rfl
      · by_cases h3 : c = '\r'
        · subst h3; simp [h1, h2, escFixG]; rfl
        · simp [h1, h2, h3, escFixG, lineFixData, nlEsc, crStrip]

theorem flatMapG_not_comma_head (t : List Char) : ∀ r2, t.flatMap escFixG ≠ ',' :: r2 := by
  induction t with
  | nil => intro r2; simp
  | cons c t2 ih =>
    intro r2
    show escFixG c ++ t2.flatMap escFixG ≠ ',' :: r2
    by_cases h1 : c = ','
    · simp [h1, escFixG]
    · by_cases h2 : c = '\n'
      · simp [h1, h2, escFixG]
      · by_cases h3 : c = '\r'
        · subst h3
          show escFixG '\r' ++ t2.flatMap escFixG ≠ ',' :: r2
          have hg : escFixG '\r' = [] := rfl
          rw [hg, List.nil_append]
          exact ih r2
        · simp only [escFixG, if_neg h1, if_neg h2, if_neg h3, List.cons_append,
            List.nil_append]
          intro hcon
          exact h1 (List.cons.inj hcon).1

theorem commaSafe_cons_of (c : Char) (hc : c ≠ ',') (hb : c ≠ '\\') (X : List Char)
    (h : commaSafe X = true) : commaSafe (c :: X) = true := by
  cases X with
  | nil => simp [commaSafe, hc]
  | cons x xs =>
    show (if c = ',' then false
      else if c = '\\' ∧ x = ',' then commaSafe xs else commaSafe (x :: xs)) = true
    rw [if_neg hc, if_neg (by intro hcon; exact hb hcon.1)]
    exact h

theorem commaSafe_bs_pair (X : List Char) (h : commaSafe X = true) :
    commaSafe ('\\' :: ',' :: X) = true := by
  show (if ('\\' : Char) = ',' then false
    else if ('\\' : Char) = '\\' ∧ (',' : Char) = ',' then commaSafe X
    else commaSafe (',' :: X)) = true
  rw [if_neg (by decide), if_pos ⟨rfl, rfl⟩]
  exact h

theorem commaSafe_bs_cons (X : List Char) (hX : ∀ r2, X ≠ ',' :: r2)
    (h : commaSafe X = true) : commaSafe ('\\' :: X) = true := by
  cases X with
  | nil => rfl
  | cons x xs =>
    show (if ('\\' : Char) = ',' then false
      else if ('\\' : Char) = '\\' ∧ x = ',' then commaSafe xs else commaSafe (x :: xs)) = true
    rw [if_neg (by decide), if_neg (by
      intro hcon
      exact hX xs (by rw [hcon.2]))]
    exact h

theorem commaSafe_flatMapG (l : List Char) : commaSafe (l.flatMap escFixG) = true := by
  induction l with
  | nil => rfl
  | cons c t ih =>
    show commaSafe (escFixG c ++ t.flatMap escFixG) = true
    by_cases h1 : c = ','
    · subst h1
      show commaSafe ('\\' :: ',' :: t.flatMap escFixG) = true
      exact commaSafe_bs_pair _ ih
    · by_cases h2 : c = '\n'
      · subst h2
        show commaSafe ('\\' :: 'n' :: t.flatMap escFixG) = true
        refine commaSafe_bs_cons _ (fun r2 hcon => ?_) ?_
        · exact absurd (List.cons.inj hcon).1 (by decide)
        · exact commaSafe_cons_of 'n' (by decide) (by decide) _ ih
      · by_cases h3 : c = '\r'
        · subst h3
          show commaSafe (escFixG '\r' ++ t.flatMap escFixG) = true
          have hg : escFixG '\r' = [] := rfl
          rw [hg, List.nil_append]
          exact ih
        · by_cases h4 : c = '\\'
          · subst h4
            show commaSafe ('\\' :: t.flatMap escFixG) = true
            exact commaSafe_bs_cons _ (flatMapG_not_comma_head t) ih
          · show commaSafe (escFixG c ++ t.flatMap escFixG) = true
            have hg : escFixG c = [c] := by simp [escFixG, h1, h2, h3]
            rw [hg, List.singleton_append]
            exact commaSafe_cons_of c h1 h4 _ ih

theorem commaSafe_prefixed (pre : List Char) (hpre : ∀ c ∈ pre, c ≠ ',' ∧ c ≠ '\\')
    (X : List Char) (hX : commaSafe X = true) : commaSafe (pre ++ X) = true := by
  induction pre with
  | nil => simpa using hX
  | cons c p ih =>
    rw [List.cons_append]
    refine commaSafe_cons_of c (hpre c (List.mem_cons_self _ _)).1
      (hpre c (List.mem_cons_self _ _)).2 _ ?_
    exact ih (fun d hd => hpre d (List.mem_cons_of_mem _ hd))

theorem lineFixData_id_of (l : List Char) (h : ∀ c ∈ l, c ≠ '\n' ∧ c ≠ '\r') :
    lineFixData l = l := by
  induction l with
  | nil => rfl
  | cons c t ih =>
    have h1 := h c (List.mem_cons_self _ _)
    show lineFixData ([c] ++ t) = c :: t
    rw [lineFixData_append]
    have hc : lineFixData [c] = [c] := by
      simp [lineFixData, nlEsc, crStrip, h1.1, h1.2]
    rw [hc, ih (fun d hd => h d (List.mem_cons_of_mem _ hd))]
    rfl

/-- Comma safety of a full escaped field line: a comma-free and
backslash-free prefix, followed by the comma-escaped value, after the
per-line cleanup, never shows a comma that is not immediately preceded by
a backslash. -/
theorem commaSafe_field_line (pre : String) (hpre : ∀ c ∈ pre.data, c ≠ ',' ∧ c ≠ '\\')
    (hpre2 : ∀ c ∈ pre.data, c ≠ '\n' ∧ c ≠ '\r')
    (s : String) : commaSafe ((pyLineFix (pre ++ escapeCommas s)).data) = true := by
  show commaSafe (lineFixData (pre ++ escapeCommas s).data) = true
  rw [sdata_append]
  show commaSafe (lineFixData (pre.data ++ escCommaChars s.data)) = true
  rw [lineFixData_append, lineFix_escComma_eq, lineFixData_id_of pre.data hpre2]
  exact commaSafe_prefixed _ hpre _ (commaSafe_flatMapG s.data)

/-! ## Membership and shape of the assembled lines -/

theorem fn_line_mem (uid : String) (p : PersonRow) :
    "FN:" ++ fullName p ∈ scalarLines uid p := by
  simp [scalarLines]

theorem note_line_mem (uid : String) (p : PersonRow) (h : truthyO p.note = true) :
    "NOTE:" ++ escapeCommas (p.note.getD "") ∈ scalarLines uid p := by
  simp [scalarLines, h]

theorem nickname_line_mem (uid : String) (p : PersonRow) (h : truthyO p.nickname = true) :
    "NICKNAME:" ++ escapeCommas (p.nickname.getD "") ∈ scalarLines uid p := by
  simp [scalarLines, h]

theorem title_line_mem (uid : String) (p : PersonRow) (h : truthyO p.jobTitle = true) :
    "TITLE:" ++ escapeCommas (p.jobTitle.getD "") ∈ scalarLines uid p := by
  simp [scalarLines, h]

theorem org_line_mem (uid : String) (p : PersonRow) (o : String) (h : orgField p = some o) :
    "ORG:" ++ escapeCommas o ∈ scalarLines uid p := by
  simp [scalarLines, h]

theorem bday_line_mem (uid : String) (p : PersonRow) (q : ℚ)
    (h : pyFloatOfSql p.birthday = some q) :
    "BDAY:" ++ fmtYMD (dateOfEpochSeconds (ratTrunc q)) ∈ scalarLines uid p := by
  simp [scalarLines, bdaySeg, h]

theorem serializeContact_scalar_mem (labelTab keyTab : List (Int × String)) (uid : String)
    (p : PersonRow) (rows : List (MVRow × List MVEntryRow)) (ls : List String)
    (h : serializeContact labelTab keyTab uid p rows = .ok ls)
    (line : String) (hline : line ∈ scalarLines uid p) : pyLineFix line ∈ ls := by
  obtain ⟨A, I, rfl, -, -⟩ := serializeContact_ok labelTab keyTab uid p rows ls h
  exact List.mem_map_of_mem _ (by simp [hline])

theorem app_extend {p s : String} (b : String) (h : ∃ x, s = p ++ x) :
    ∃ x, s ++ b = p ++ x := by
  obtain ⟨x, rfl⟩ := h
  exact ⟨x ++ b, by rw [String.append_assoc]⟩

theorem mveLines_mem_shape (vt topv : String) (r : MVRow) (mve : Option MVEntryRow)
    (l : String) (h : l ∈ mveLines vt topv r mve) :
    (∃ x, l = "TEL;TYPE=" ++ x) ∨ (∃ x, l = "EMAIL;TYPE=" ++ x) ∨
    (∃ x, l = "ANNIVERSARY" ++ x) ∨ (∃ x, l = "URL;TYPE=" ++ x) ∨
    (∃ x, l = "RELATED;TYPE=" ++ x) := by
  unfold mveLines at h
  simp only [List.mem_append] at h
  rcases h with ((((h | h) | h) | h) | h)
  · split at h <;> simp at h
    subst h
    exact Or.inl (app_extend _ (app_extend _ ⟨_, rfl⟩))
  · split at h <;> simp at h
    subst h
    exact Or.inr (Or.inl (app_extend _ (app_extend _ ⟨_, rfl⟩)))
  · refine Or.inr (Or.inr (Or.inl ?_))
    rcases hf : pyFloatOfSql (mveValue topv mve) with _ | q
    · rw [hf] at h; simp at h
    · rw [hf] at h
      split at h <;> simp at h
      obtain ⟨-, rfl⟩ := h
      unfold annivLine
      exact app_extend _ (app_extend _ ⟨_, rfl⟩)
  · split at h <;> simp at h
    subst h
    exact Or.inr (Or.inr (Or.inr (Or.inl (app_extend _ (app_extend _ ⟨_, rfl⟩)))))
  · split at h <;> simp at h
    subst h
    exact Or.inr (Or.inr (Or.inr (Or.inr
      (app_extend _ (app_extend _ (app_extend _ ⟨_, rfl⟩))))))

theorem scalarLines_mem_shape (uid : String) (p : PersonRow) (l : String)
    (h : l ∈ scalarLines uid p) :
    l = "BEGIN:VCARD" ∨ l = "VERSION:4.0" ∨ (∃ x, l = "UID:urn:uuid:" ++ x) ∨
    (∃ x, l = "N:" ++ x) ∨ (∃ x, l = "FN:" ++ x) ∨ (∃ x, l = "NICKNAME:" ++ x) ∨
    l ∈ bdaySeg p ∨ (∃ x, l = "TITLE:" ++ x) ∨ (∃ x, l = "ORG:" ++ x) ∨
    (∃ x, l = "NOTE:" ++ x) := by
  unfold scalarLines at h
  simp only [List.mem_append, List.mem_cons, List.mem_singleton, List.not_mem_nil,
    or_false] at h
  rcases h with (((((((h | h) | h) | h) | h) | h) | h) | h)
  · rcases h with h | h | h
    · exact Or.inl h
    · exact Or.inr (Or.inl h)
    · exact Or.inr (Or.inr (Or.inl ⟨uid, h⟩))
  · split at h <;> simp at h
    subst h
    exact Or.inr (Or.inr (Or.inr (Or.inl
      (app_extend _ (app_extend _ (app_extend _ (app_extend _
        (app_extend _ (app_extend _ (app_extend _ (app_extend _ ⟨_, rfl⟩)))))))))))
  · subst h
    exact Or.inr (Or.inr (Or.inr (Or.inr (Or.inl ⟨fullName p, rfl⟩))))
  · split at h <;> simp at h
    subst h
    exact Or.inr (Or.inr (Or.inr (Or.inr (Or.inr (Or.inl ⟨_, rfl⟩)))))
  · exact Or.inr (Or.inr (Or.inr (Or.inr (Or.inr (Or.inr (Or.inl h))))))
  · split at h <;> simp at h
    subst h
    exact Or.inr (Or.inr (Or.inr (Or.inr (Or.inr (Or.inr (Or.inr (Or.inl ⟨_, rfl⟩)))))))
  · split at h <;> simp at h
    subst h
    exact Or.inr (Or.inr (Or.inr (Or.inr (Or.inr (Or.inr (Or.inr (Or.inr (Or.inl ⟨_, rfl⟩))))))))
  · split at h <;> simp at h
    subst h
    exact Or.inr (Or.inr (Or.inr (Or.inr (Or.inr (Or.inr (Or.inr (Or.inr (Or.inr ⟨_, rfl⟩))))))))

/-! ## Absence of a BDAY line -/

theorem bday_not_prefix_of_head (c : Char) (t : List Char) (hc : c ≠ 'B') :
    "BDAY".data.isPrefixOf (c :: t) = false := by
  have hlit : "BDAY".data = 'B' :: ['D', 'A', 'Y'] := rfl
  rw [hlit]
  show (('B' == c) && List.isPrefixOf ['D', 'A', 'Y'] t) = false
  have hb : ('B' == c) = false := beq_eq_false_iff_ne.mpr (Ne.symm hc)
  rw [hb, Bool.false_and]

theorem bday_not_prefix_fix_append (pre rest : String) (c : Char) (t : List Char)
    (hd : pre.data = c :: t) (hc : c ≠ 'B') (hn : c ≠ '\n') (hr : c ≠ '\r') :
    "BDAY".data.isPrefixOf (pyLineFix (pre ++ rest)).data = false := by
  have hdata : (pyLineFix (pre ++ rest)).data = lineFixData (pre.data ++ rest.data) := rfl
  rw [hdata, hd, List.cons_append]
  show "BDAY".data.isPrefixOf (lineFixData ([c] ++ (t ++ rest.data))) = false
  rw [lineFixData_append]
  have hc1 : lineFixData [c] = [c] := by simp [lineFixData, nlEsc, crStrip, hn, hr]
  rw [hc1]
  exact bday_not_prefix_of_head c _ hc

theorem serializeContact_no_bday (labelTab keyTab : List (Int × String)) (uid : String)
    (p : PersonRow) (rows : List (MVRow × List MVEntryRow)) (ls : List String)
    (h : serializeContact labelTab keyTab uid p rows = .ok ls)
    (hb : pyFloatOfSql p.birthday = none) :
    ∀ l ∈ ls, "BDAY".data.isPrefixOf l.data = false := by
  obtain ⟨A, I, rfl, hA, hI⟩ := serializeContact_ok labelTab keyTab uid p rows ls h
  intro l hl
  simp only [List.mem_map] at hl
  obtain ⟨x, hx, rfl⟩ := hl
  simp only [List.mem_append, List.mem_singleton] at hx
  rcases hx with ((((hx | hx) | hx) | hx) | hx)
  · rcases scalarLines_mem_shape uid p x hx with
      h0 | h0 | ⟨y, rfl⟩ | ⟨y, rfl⟩ | ⟨y, rfl⟩ | ⟨y, rfl⟩ | h0 | ⟨y, rfl⟩ | ⟨y, rfl⟩ | ⟨y, rfl⟩
    · subst h0; decide
    · subst h0; decide
    · exact bday_not_prefix_fix_append "UID:urn:uuid:" y 'U' _ rfl
        (by decide) (by decide) (by decide)
    · exact bday_not_prefix_fix_append "N:" y 'N' _ rfl (by decide) (by decide) (by decide)
    · exact bday_not_prefix_fix_append "FN:" y 'F' _ rfl (by decide) (by decide) (by decide)
    · exact bday_not_prefix_fix_append "NICKNAME:" y 'N' _ rfl
        (by decide) (by decide) (by decide)
    · rw [bdaySeg, hb] at h0
      exact absurd h0 (by simp)
    · exact bday_not_prefix_fix_append "TITLE:" y 'T' _ rfl (by decide) (by decide) (by decide)
    · exact bday_not_prefix_fix_append "ORG:" y 'O' _ rfl (by decide) (by decide) (by decide)
    · exact bday_not_prefix_fix_append "NOTE:" y 'N' _ rfl (by decide) (by decide) (by decide)
  · simp only [List.mem_flatMap] at hx
    obtain ⟨rc, -, hmem⟩ := hx
    unfold rowLinesPure at hmem
    rcases hres : resolveLabel labelTab rc.1.label with e | vt
    · rw [hres] at hmem; exact absurd hmem (by simp)
    · rw [hres] at hmem
      simp only [List.mem_flatMap] at hmem
      obtain ⟨mve, -, hmem2⟩ := hmem
      rcases mveLines_mem_shape vt _ rc.1 mve x hmem2 with
        ⟨y, rfl⟩ | ⟨y, rfl⟩ | ⟨y, rfl⟩ | ⟨y, rfl⟩ | ⟨y, rfl⟩
      · exact bday_not_prefix_fix_append "TEL;TYPE=" y 'T' _ rfl
          (by decide) (by decide) (by decide)
      · exact bday_not_prefix_fix_append "EMAIL;TYPE=" y 'E' _ rfl
          (by decide) (by decide) (by decide)
      · exact bday_not_prefix_fix_append "ANNIVERSARY" y 'A' _ rfl
          (by decide) (by decide) (by decide)
      · exact bday_not_prefix_fix_append "URL;TYPE=" y 'U' _ rfl
          (by decide) (by decide) (by decide)
      · exact bday_not_prefix_fix_append "RELATED;TYPE=" y 'R' _ rfl
          (by decide) (by decide) (by decide)
  · obtain ⟨t0, c0, rfl⟩ := hA x hx
    rw [String.append_assoc, String.append_assoc]
    exact bday_not_prefix_fix_append "ADDR;TYPE=" (t0 ++ (":" ++ c0)) 'A' _ rfl
      (by decide) (by decide) (by decide)
  · obtain ⟨t0, c0, rfl⟩ := hI x hx
    rw [String.append_assoc, String.append_assoc]
    exact bday_not_prefix_fix_append "IMPP;TYPE=" (t0 ++ (":" ++ c0)) 'I' _ rfl
      (by decide) (by decide) (by decide)
  · subst hx; decide

/-! ## Filename basis in joined form -/

theorem sapp_empty_iff (a b : String) : a ++ b = "" ↔ a = "" ∧ b = "" := by
  constructor
  · intro h
    have hd := congrArg String.data h
    rw [sdata_append] at hd
    have hn := List.append_eq_nil.mp hd
    exact ⟨seq_iff.mpr hn.1, seq_iff.mpr hn.2⟩
  · rintro ⟨rfl, rfl⟩
    rfl

theorem baseFn_eq_amended (p : PersonRow) : baseFn p = specBaseAmended p := by
  unfold baseFn specBaseAmended specNamesPresent
  cases hf : truthyO p.first <;> cases hm : truthyO p.middle <;> cases hl : truthyO p.last <;>
    simp [hf, hm, hl, joinSp, sapp_empty_iff, String.append_assoc]

/-! ## The identifier map and group serialization -/

theorem dictSetI_lookup (d : List (Int × String)) (k : Int) (v : String) (k2 : Int) :
    List.lookup k2 (dictSetI d k v) = if k2 = k then some v else List.lookup k2 d := by
  induction d with
  | nil =>
    simp only [dictSetI, List.lookup]
    by_cases hk : k2 = k
    · simp [hk]
    · simp [beq_eq_false_iff_ne.mpr hk, hk]
  | cons p t ih =>
    unfold dictSetI
    by_cases hp : p.1 = k
    · rw [if_pos hp]
      by_cases hk2 : k2 = k
      · simp [List.lookup, hk2]
      · have h1 : (k2 == k) = false := beq_eq_false_iff_ne.mpr hk2
        have h2 : (k2 == p.1) = false := beq_eq_false_iff_ne.mpr (by rw [hp]; exact hk2)
        simp [List.lookup, h1, h2, hk2]
    · rw [if_neg hp]
      by_cases hk2 : k2 = p.1
      · have h2 : (k2 == p.1) = true := beq_iff_eq.mpr hk2
        have hne : ¬k2 = k := by rw [hk2]; exact hp
        simp [List.lookup, h2, hne]
      · have h2 : (k2 == p.1) = false := beq_eq_false_iff_ne.mpr hk2
        simp [List.lookup, h2, ih]

theorem buildUidMap_fold_isSome (m : Int) :
    ∀ (l : List (PersonRow × String)) (acc : List (Int × String)),
      ((List.lookup m acc).isSome = true ∨ ∃ pu ∈ l, pu.1.rowid = m) →
      (List.lookup m (l.foldl (fun mm pu => dictSetI mm pu.1.rowid pu.2) acc)).isSome = true := by
  intro l
  induction l with
  | nil =>
    rintro acc (h | ⟨pu, hpu, -⟩)
    · exact h
    · exact absurd hpu (by simp)
  | cons pu t ih =>
    rintro acc (h | ⟨qu, hqu, hq⟩)
    · refine ih _ (Or.inl ?_)
      rw [dictSetI_lookup]
      split
      · rfl
      · exact h
    · rcases List.mem_cons.mp hqu with rfl | hmem
      · refine ih _ (Or.inl ?_)
        rw [dictSetI_lookup, if_pos hq.symm]
        rfl
      · exact ih _ (Or.inr ⟨qu, hmem, hq⟩)

theorem mem_zip_of_mem_left {α β : Type} {b : α} : ∀ {l1 : List α} {l2 : List β},
    b ∈ l1 → l2.length = l1.length → ∃ u, (b, u) ∈ l1.zip l2 := by
  intro l1
  induction l1 with
  | nil => intro l2 h; simp at h
  | cons x t ih =>
    intro l2 h hlen
    cases l2 with
    | nil => simp at hlen
    | cons u us =>
      rcases List.mem_cons.mp h with rfl | hmem
      · exact ⟨u, by simp⟩
      · obtain ⟨w, hw⟩ := ih hmem (by simpa using hlen)
        exact ⟨w, List.mem_cons_of_mem _ hw⟩

theorem buildUidMap_lookup_isSome (persons : List PersonRow) (uids : List String)
    (hlen : uids.length = persons.length) (m : Int)
    (hm : m ∈ persons.map (fun x => x.rowid)) :
    (List.lookup m (buildUidMap persons uids)).isSome = true := by
  obtain ⟨q, hq, hrow⟩ := List.mem_map.mp hm
  obtain ⟨u, hu⟩ := mem_zip_of_mem_left hq hlen
  exact buildUidMap_fold_isSome m (persons.zip uids) [] (Or.inr ⟨(q, u), hu, hrow⟩)

theorem memberFold_ok (uidMap : List (Int × String)) :
    ∀ (members : List Int) (acc : List String),
      (∀ m ∈ members, (List.lookup m uidMap).isSome = true) →
      (members.foldlM (fun acc m =>
          match List.lookup m uidMap with
          | some u => Except.ok (acc ++ ["MEMBER:urn:uuid:" ++ u])
          | none => Except.error PyErr.keyError) acc : Except PyErr (List String))
        = .ok (acc ++ members.map (fun m =>
            "MEMBER:urn:uuid:" ++ ((List.lookup m uidMap).getD ""))) := by
  intro members
  induction members with
  | nil =>
    intro acc _
    simp only [List.foldlM_nil, List.map_nil, List.append_nil]
    rfl
  | cons m t ih =>
    intro acc hall
    obtain ⟨u, hu⟩ := Option.isSome_iff_exists.mp (hall m (List.mem_cons_self _ _))
    rw [List.foldlM_cons, hu]
    show ((Except.ok (acc ++ ["MEMBER:urn:uuid:" ++ u]) : Except PyErr (List String)) >>=
      fun b => t.foldlM _ b) = _
    rw [show ∀ (x : List String) (f : List String → Except PyErr (List String)),
        ((Except.ok x : Except PyErr (List String)) >>= f) = f x from fun x f => rfl]
    rw [ih _ (fun m2 hm2 => hall m2 (List.mem_cons_of_mem _ hm2))]
    simp [hu, List.append_assoc]

theorem serializeGroup_ok_shape (uidMap : List (Int × String)) (g : GroupRow)
    (members : List Int) (out : Option (List String))
    (h : serializeGroup uidMap g members = .ok out)
    (hname : truthyO g.name = true)
    (hdig : (intRepr g.rowid).data.length = 1)
    (hmem : ∀ m ∈ members, (List.lookup m uidMap).isSome = true) :
    out = some ((["BEGIN:VCARD", "VERSION:4.0", "KIND:group", "FN:" ++ g.name.getD ""]
      ++ members.map (fun m => "MEMBER:urn:uuid:" ++ ((List.lookup m uidMap).getD ""))
      ++ ["END:VCARD"]).map pyLineFix) := by
  unfold serializeGroup at h
  rw [if_pos hname, if_pos hdig] at h
  rw [memberFold_ok uidMap members [] hmem] at h
  simp only [List.nil_append] at h
  exact (Except.ok.inj h).symm

/-! ## A row with no effective value contributes nothing -/

theorem pyFloatText_empty : pyFloatText "" = none := rfl

theorem processMVE_idle (keyTab : List (Int × String)) (vt : String) (r : MVRow) (st : CState) :
    processMVE keyTab vt "" r st none
      = .ok (if r.property == 46 then { st with skipped := true } else st) := by
  unfold processMVE
  have hval : mveValue "" none = Sql.text "" := rfl
  rw [hval]
  have ht : pyTruthy (Sql.text "") = false := rfl
  have hfl : pyFloatOfSql (Sql.text "") = none := rfl
  simp [ht, hfl]

theorem serializeContact_single_idle (labelTab keyTab : List (Int × String)) (uid : String)
    (p : PersonRow) (r : MVRow) (ls : List String)
    (h : serializeContact labelTab keyTab uid p [(r, [])] = .ok ls)
    (hval : pyTruthy r.value = false) :
    ls = (scalarLines uid p ++ ["END:VCARD"]).map pyLineFix := by
  unfold serializeContact at h
  have hrow : processRow labelTab keyTab (CState.mk (scalarLines uid p) [] [] false) (r, [])
      = (match resolveLabel labelTab r.label with
        | .error e => .error e
        | .ok _ => .ok (if r.property == 46 then
            { CState.mk (scalarLines uid p) [] [] false with skipped := true }
          else CState.mk (scalarLines uid p) [] [] false)) := by
    unfold processRow
    cases hres : resolveLabel labelTab r.label with
    | error e => rfl
    | ok vt =>
      show (mvesOf []).foldlM (processMVE keyTab vt
        (if pyTruthy r.value = true then pyStrFmt r.value else "") r)
        (CState.mk (scalarLines uid p) [] [] false) = _
      rw [hval]
      show [none].foldlM (processMVE keyTab vt (if (false : Bool) = true then pyStrFmt r.value else "") r)
        (CState.mk (scalarLines uid p) [] [] false) = _
      rw [if_neg (by simp)]
      simp only [List.foldlM_cons, processMVE_idle, List.foldlM_nil, bind_pure]
  simp only [List.foldlM_cons, List.foldlM_nil, bind_pure] at h
  rw [hrow] at h
  cases hres : resolveLabel labelTab r.label with
  | error e =>
    rw [hres] at h
    cases h
  | ok vt =>
    rw [hres] at h
    cases h46 : (r.property == 46) <;>
      simp only [h46, emitBuckets] at h <;>
      exact (Except.ok.inj h).symm

theorem serializeContact_rowline_mem (labelTab keyTab : List (Int × String)) (uid : String)
    (p : PersonRow) (rows : List (MVRow × List MVEntryRow)) (ls : List String)
    (h : serializeContact labelTab keyTab uid p rows = .ok ls)
    (rc : MVRow × List MVEntryRow) (hrc : rc ∈ rows)
    (line : String) (hline : line ∈ rowLinesPure labelTab rc) : pyLineFix line ∈ ls := by
  obtain ⟨A, I, rfl, -, -⟩ := serializeContact_ok labelTab keyTab uid p rows ls h
  refine List.mem_map_of_mem _ ?_
  apply List.mem_append_left
  apply List.mem_append_left
  apply List.mem_append_left
  apply List.mem_append_right
  exact List.mem_flatMap.mpr ⟨rc, hrc, hline⟩

/-! ## The claims -/

/-- Claim C1 (code bug): the spec says an accumulated address or IM bucket
with neither a type label nor merged sub-fields is dropped with a warning
while the rest of the record is written and the run continues.  The warning
handler reads e.message, which Python 3 exceptions do not provide, so the
handler itself raises AttributeError and the run aborts: evaluated at a
contact whose single address row carries identifier 1 (leaving the padding
bucket at index 0 with no label and no fields), and at the analogous IM row. -/
theorem spec2proof_c1_code_bug :
    serializeContact [] [] "u"
      ⟨1, none, none, none, none, none, none, .null, none, none, none, none⟩
      [(⟨10, 5, .null, .int 1, .null⟩, [⟨.null, .text "Main St"⟩])]
      = .error .attributeError
    ∧ serializeContact [] [] "u"
      ⟨1, none, none, none, none, none, none, .null, none, none, none, none⟩
      [(⟨10, 13, .null, .int 1, .text "bob"⟩, [])]
      = .error .attributeError := by
  exact ⟨rfl, rfl⟩

/-- Claim C3 (code bug): label resolution handles a stored bracket pattern
(strip and lowercase), a descriptive string with no lookup row (used
verbatim) and an absent reference (empty string), but an integer label
reference with no matching ABMultiValueLabel row leaves the raw integer in
value_type and the startswith call on it raises AttributeError, so
resolution is not total as the spec claims. -/
theorem spec2proof_c3_code_bug :
    resolveLabel [(5, "_$!<Home>!$_")] (Sql.int 5) = .ok "home"
    ∧ resolveLabel [] (Sql.text "CustomLabel") = .ok "CustomLabel"
    ∧ resolveLabel [] Sql.null = .ok ""
    ∧ resolveLabel [] (Sql.int 7) = .error .attributeError := by
  exact ⟨rfl, rfl, rfl, rfl⟩

/-- Claim C5: writing never replaces an existing file: every sequential write
targets a path that neither pre-existed nor was produced by an earlier write
of the run, and a base name already taken receives the suffixes dash 2,
dash 3, and so on, incrementing until a free name is found. -/
theorem spec2proof_c5 :
    (∀ (fs bases : List String),
      (∀ q ∈ runWrites fs bases, q ∉ fs) ∧ (runWrites fs bases).Nodup)
    ∧ (∀ (fs : List String) (base : String),
        base ++ ".vcf" ∉ fs → mkCand base 2 ∉ fs → mkCand base 3 ∉ fs →
        runWrites fs [base, base, base] = [base ++ ".vcf", mkCand base 2, mkCand base 3]) :=
  ⟨fun fs bases => runWrites_fresh bases fs,
   fun fs base h1 h2 h3 => runWrites_three fs base h1 h2 h3⟩

/-- Claim C5 witness: three contacts named A written into an empty directory
produce A.vcf, A - 2.vcf and A - 3.vcf. -/
theorem spec2proof_c5_witness :
    runWrites [] ["A", "A", "A"] = ["A" ++ ".vcf", mkCand "A" 2, mkCand "A" 3] :=
  spec2proof_c5.2 [] "A" (by simp) (by simp) (by simp)

/-- Claim C9 counterexample: a contact with first name A and no middle or
last name gets base filename A followed by a space, not the space-joined
and trimmed A of the spec. -/
theorem spec2proof_c9_cex :
    baseFn ⟨1, some "A", none, none, none, none, none, .null, none, none, none, none⟩ = "A "
    ∧ specBaseFn ⟨1, some "A", none, none, none, none, none, .null, none, none, none, none⟩ = "A"
    ∧ baseFn ⟨1, some "A", none, none, none, none, none, .null, none, none, none, none⟩
      ≠ specBaseFn ⟨1, some "A", none, none, none, none, none, .null, none, none, none, none⟩ := by
  refine ⟨rfl, ?_, ?_⟩ <;> decide

/-- Claim C9 (amended): the base filename is the space-joined truthy name
components except that no trimming is applied and a trailing space remains
whenever the last name is absent but a first or middle name is present;
UNNAMED when empty. -/
theorem spec2proof_c9 (p : PersonRow) : baseFn p = specBaseAmended p :=
  baseFn_eq_amended p

/-- Claim C4 counterexample: a contact with every name component absent gets
base filename UNNAMED, but the emitted FN line is the bare FN: with an empty
value, not a non-empty one as the claim states. -/
theorem spec2proof_c4_cex :
    serializeContact [] [] "u"
      ⟨1, none, none, none, none, none, none, .null, none, none, none, none⟩ []
      = .ok ["BEGIN:VCARD", "VERSION:4.0", "UID:urn:uuid:u", "FN:", "END:VCARD"]
    ∧ baseFn ⟨1, none, none, none, none, none, none, .null, none, none, none, none⟩
      = "UNNAMED" := by
  exact ⟨rfl, rfl⟩

/-- Claim C2 counterexample: with an email row arriving before a phone row
the EMAIL line precedes the TEL line in the output, so multi-value lines are
not grouped into the fixed TEL-before-EMAIL block order. -/
theorem spec2proof_c2_cex :
    serializeContact [] [] "u"
      ⟨1, none, none, none, none, none, none, .null, none, none, none, none⟩
      [(⟨1, 4, .null, .int 0, .text "b"⟩, []), (⟨2, 3, .null, .int 0, .text "a"⟩, [])]
      = .ok ["BEGIN:VCARD", "VERSION:4.0", "UID:urn:uuid:u", "FN:",
             "EMAIL;TYPE=:b", "TEL;TYPE=:a", "END:VCARD"]
    ∧ (["BEGIN:VCARD", "VERSION:4.0", "UID:urn:uuid:u", "FN:",
        "EMAIL;TYPE=:b", "TEL;TYPE=:a", "END:VCARD"] : List String).indexOf "EMAIL;TYPE=:b"
      < (["BEGIN:VCARD", "VERSION:4.0", "UID:urn:uuid:u", "FN:",
          "EMAIL;TYPE=:b", "TEL;TYPE=:a", "END:VCARD"] : List String).indexOf "TEL;TYPE=:a" := by
  exact ⟨rfl, by decide⟩

/-- Claim C10 counterexample: a phone row whose value column is NULL but
which owns a sub-entry row with value 123 still emits a TEL line, because
the sub-entry value replaces the value column. -/
theorem spec2proof_c10_cex :
    serializeContact [] [] "u"
      ⟨1, none, none, none, none, none, none, .null, none, none, none, none⟩
      [(⟨10, 3, .null, .int 0, .null⟩, [⟨.null, .text "123"⟩])]
      = .ok ["BEGIN:VCARD", "VERSION:4.0", "UID:urn:uuid:u", "FN:",
             "TEL;TYPE=:123", "END:VCARD"]
    ∧ (⟨10, 3, .null, .int 0, .null⟩ : MVRow).value = Sql.null := by
  exact ⟨rfl, rfl⟩

/-- Claim C2 (amended): the serialized vCard lists the TEL, EMAIL,
ANNIVERSARY, URL and RELATED lines interleaved in multi-value row arrival
order after the scalar head, followed by all ADDR lines, then all IMPP
lines, then END — only the ADDR and IMPP blocks are grouped regardless of
arrival order. -/
theorem spec2proof_c2 (labelTab keyTab : List (Int × String)) (uid : String)
    (p : PersonRow) (rows : List (MVRow × List MVEntryRow)) (ls : List String)
    (h : serializeContact labelTab keyTab uid p rows = .ok ls) :
    ∃ A I, ls = ((scalarLines uid p ++ rows.flatMap (rowLinesPure labelTab) ++ A ++ I)
        ++ ["END:VCARD"]).map pyLineFix
      ∧ (∀ a ∈ A, ∃ t c, a = "ADDR;TYPE=" ++ t ++ ":" ++ c)
      ∧ (∀ b ∈ I, ∃ t c, b = "IMPP;TYPE=" ++ t ++ ":" ++ c) :=
  serializeContact_ok labelTab keyTab uid p rows ls h

/-- Claim C2 witness: the amended decomposition instantiated at a contact
with an email row followed by a phone row. -/
theorem spec2proof_c2_witness :
    ∃ A I, (["BEGIN:VCARD", "VERSION:4.0", "UID:urn:uuid:u", "FN:",
        "EMAIL;TYPE=:b", "TEL;TYPE=:a", "END:VCARD"] : List String)
      = ((scalarLines "u" ⟨1, none, none, none, none, none, none, .null, none, none, none, none⟩
          ++ ([(⟨1, 4, .null, .int 0, .text "b"⟩, []), (⟨2, 3, .null, .int 0, .text "a"⟩, [])]
              : List (MVRow × List MVEntryRow)).flatMap (rowLinesPure [])
          ++ A ++ I) ++ ["END:VCARD"]).map pyLineFix
      ∧ (∀ a ∈ A, ∃ t c, a = "ADDR;TYPE=" ++ t ++ ":" ++ c)
      ∧ (∀ b ∈ I, ∃ t c, b = "IMPP;TYPE=" ++ t ++ ":" ++ c) :=
  spec2proof_c2 [] [] "u" ⟨1, none, none, none, none, none, none, .null, none, none, none, none⟩
    [(⟨1, 4, .null, .int 0, .text "b"⟩, []), (⟨2, 3, .null, .int 0, .text "a"⟩, [])] _ rfl

/-- Claim C4 (amended): for a contact whose name components are all absent
or empty the base filename is the UNNAMED placeholder and the serialized
vCard still contains an FN line, but with an empty value (the bare FN:
line), not a non-empty one. -/
theorem spec2proof_c4 (labelTab keyTab : List (Int × String)) (uid : String)
    (p : PersonRow) (rows : List (MVRow × List MVEntryRow)) (ls : List String)
    (hf : truthyO p.first = false) (hl : truthyO p.last = false)
    (hm : truthyO p.middle = false) (hp : truthyO p.prfx = false)
    (hs : truthyO p.suffix = false)
    (h : serializeContact labelTab keyTab uid p rows = .ok ls) :
    baseFn p = "UNNAMED" ∧ fullName p = "" ∧ "FN:" ∈ ls := by
  have hfn : fullName p = "" := by
    unfold fullName presentFN
    simp [hf, hl, hm, hp, hs, joinSp]
  refine ⟨?_, hfn, ?_⟩
  · unfold baseFn
    simp [hf, hm, hl]
  · have hmem := serializeContact_scalar_mem labelTab keyTab uid p rows ls h
      ("FN:" ++ fullName p) (fn_line_mem uid p)
    rw [hfn] at hmem
    have : pyLineFix ("FN:" ++ "") = "FN:" := rfl
    rwa [this] at hmem

/-- Claim C4 witness: the amended claim instantiated at a fully unnamed
contact with no multi-value rows. -/
theorem spec2proof_c4_witness :
    baseFn ⟨1, none, none, none, none, none, none, .null, none, none, none, none⟩ = "UNNAMED"
    ∧ fullName ⟨1, none, none, none, none, none, none, .null, none, none, none, none⟩ = ""
    ∧ "FN:" ∈ ["BEGIN:VCARD", "VERSION:4.0", "UID:urn:uuid:u", "FN:", "END:VCARD"] :=
  spec2proof_c4 [] [] "u" ⟨1, none, none, none, none, none, none, .null, none, none, none, none⟩
    [] _ rfl rfl rfl rfl rfl rfl

/-- Claim C6: a birthday stored as epoch-seconds offset 0 from 2001-01-01
serializes to BDAY:20010101; an anniversary row with value 0 and a label
resolving to anniversary serializes to ANNIVERSARY:20010101; a contact whose
birthday cell does not parse as a number produces no line starting with
BDAY at all. -/
theorem spec2proof_c6 :
    (∀ (labelTab keyTab : List (Int × String)) (uid : String) (p : PersonRow)
        (rows : List (MVRow × List MVEntryRow)) (ls : List String),
      pyFloatOfSql p.birthday = some 0 →
      serializeContact labelTab keyTab uid p rows = .ok ls →
      "BDAY:20010101" ∈ ls)
    ∧ (∀ (labelTab keyTab : List (Int × String)) (uid : String) (p : PersonRow)
        (rows : List (MVRow × List MVEntryRow)) (ls : List String)
        (rc : MVRow × List MVEntryRow) (vt : String),
      serializeContact labelTab keyTab uid p rows = .ok ls →
      rc ∈ rows → rc.2 = [] → rc.1.property = 12 → rc.1.value = Sql.text "0" →
      resolveLabel labelTab rc.1.label = .ok vt → pyLower vt = "anniversary" →
      "ANNIVERSARY:20010101" ∈ ls)
    ∧ (∀ (labelTab keyTab : List (Int × String)) (uid : String) (p : PersonRow)
        (rows : List (MVRow × List MVEntryRow)) (ls : List String),
      pyFloatOfSql p.birthday = none →
      serializeContact labelTab keyTab uid p rows = .ok ls →
      ∀ l ∈ ls, "BDAY".data.isPrefixOf l.data = false) := by
  refine ⟨?_, ?_, ?_⟩
  · intro labelTab keyTab uid p rows ls hb h
    have hmem := serializeContact_scalar_mem labelTab keyTab uid p rows ls h
      ("BDAY:" ++ fmtYMD (dateOfEpochSeconds (ratTrunc 0))) (bday_line_mem uid p 0 hb)
    have heval : pyLineFix ("BDAY:" ++ fmtYMD (dateOfEpochSeconds (ratTrunc 0)))
        = "BDAY:20010101" := by decide
    rwa [heval] at hmem
  · intro labelTab keyTab uid p rows ls rc vt h hrc hes hprop hval hres hlow
    have hline : rowLinesPure labelTab rc = [annivLine vt 0] := by
      unfold rowLinesPure
      rw [hres, hes]
      have htv : pyTruthy rc.1.value = true := by rw [hval]; rfl
      rw [htv]
      show (mvesOf []).flatMap (mveLines vt (pyStrFmt rc.1.value) rc.1) = _
      rw [hval]
      show [none].flatMap (mveLines vt "0" rc.1) = _
      simp only [List.flatMap_cons, List.flatMap_nil, List.append_nil]
      unfold mveLines
      have hv0 : mveValue "0" none = Sql.text "0" := rfl
      rw [hv0]
      have hfl : pyFloatOfSql (Sql.text "0") = some 0 := rfl
      simp [hfl, hprop]
    have hann : annivLine vt 0 = "ANNIVERSARY:20010101" := by
      unfold annivLine
      rw [if_neg (by rw [hlow]; simp)]
      decide
    have hmem := serializeContact_rowline_mem labelTab keyTab uid p rows ls h rc hrc
      (annivLine vt 0) (by rw [hline]; exact List.mem_singleton.mpr rfl)
    rw [hann] at hmem
    have : pyLineFix "ANNIVERSARY:20010101" = "ANNIVERSARY:20010101" := rfl
    rwa [this] at hmem
  · intro labelTab keyTab uid p rows ls hb h
    exact serializeContact_no_bday labelTab keyTab uid p rows ls h hb

/-- Claim C6 witness: the three conjuncts instantiated at a contact with
birthday cell holding the text 0, at an anniversary row with value 0 and a
bracket label resolving to anniversary, and at a contact whose birthday is
the non-numeric text soon. -/
theorem spec2proof_c6_witness :
    "BDAY:20010101" ∈ ["BEGIN:VCARD", "VERSION:4.0", "UID:urn:uuid:u", "FN:",
      "BDAY:20010101", "END:VCARD"]
    ∧ "ANNIVERSARY:20010101" ∈ ["BEGIN:VCARD", "VERSION:4.0", "UID:urn:uuid:u", "FN:",
      "ANNIVERSARY:20010101", "END:VCARD"]
    ∧ (∀ l ∈ (["BEGIN:VCARD", "VERSION:4.0", "UID:urn:uuid:u", "FN:", "END:VCARD"]
        : List String), "BDAY".data.isPrefixOf l.data = false) := by
  refine ⟨?_, ?_, ?_⟩
  · exact spec2proof_c6.1 [] [] "u"
      ⟨1, none, none, none, none, none, none, .text "0", none, none, none, none⟩ [] _ rfl rfl
  · exact spec2proof_c6.2.1 [(1, "_$!<Anniversary>!$_")] [] "u"
      ⟨1, none, none, none, none, none, none, .null, none, none, none, none⟩
      [(⟨10, 12, .int 1, .int 0, .text "0"⟩, [])] _
      (⟨10, 12, .int 1, .int 0, .text "0"⟩, []) "anniversary"
      rfl (List.mem_singleton.mpr rfl) rfl rfl rfl rfl rfl
  · exact spec2proof_c6.2.2 [] [] "u"
      ⟨1, none, none, none, none, none, none, .text "soon", none, none, none, none⟩ [] _ rfl rfl

/-- Claim C7 (code bug): the claim says every group processed after all
contacts gets exactly one MEMBER line per membership row, in row order, each
referencing the identifier recorded for that member.  Line 418 passes
group_id as a bare string to cursor.execute, so any group whose rowid has
more than one digit raises sqlite3.ProgrammingError and the run aborts with
no vCard at all: evaluated at a named group with rowid 12 and one member.
For a group whose rowid survives the binding accident (a single digit) the
claimed serialization does hold, with the MEMBER lines in membership row
order referencing the recorded identifiers. -/
theorem spec2proof_c7 :
    serializeGroup [(1, "u1")] ⟨12, some "G"⟩ [1] = .error .programmingError
    ∧ (∀ (persons : List PersonRow) (uids : List String) (g : GroupRow)
        (members : List Int) (out : Option (List String)),
      uids.length = persons.length →
      truthyO g.name = true →
      (intRepr g.rowid).data.length = 1 →
      (∀ m ∈ members, m ∈ persons.map (fun x => x.rowid)) →
      serializeGroup (buildUidMap persons uids) g members = .ok out →
      out = some ((["BEGIN:VCARD", "VERSION:4.0", "KIND:group", "FN:" ++ g.name.getD ""]
        ++ members.map (fun m =>
            "MEMBER:urn:uuid:" ++ ((List.lookup m (buildUidMap persons uids)).getD ""))
        ++ ["END:VCARD"]).map pyLineFix)) := by
  constructor
  · rfl
  · intro persons uids g members out hlen hname hdig hmem h
    exact serializeGroup_ok_shape _ g members out h hname hdig
      (fun m hm => buildUidMap_lookup_isSome persons uids hlen m (hmem m hm))

/-- Claim C7 witness: a group with single-digit rowid 5 and members 2 and 1
among two processed contacts emits exactly two MEMBER lines in membership
row order referencing the recorded identifiers. -/
theorem spec2proof_c7_witness :
    (some ["BEGIN:VCARD", "VERSION:4.0", "KIND:group", "FN:G",
      "MEMBER:urn:uuid:u2", "MEMBER:urn:uuid:u1", "END:VCARD"] : Option (List String))
    = some ((["BEGIN:VCARD", "VERSION:4.0", "KIND:group", "FN:" ++ (some "G").getD ""]
      ++ ([2, 1] : List Int).map (fun m =>
          "MEMBER:urn:uuid:" ++ ((List.lookup m (buildUidMap
            [⟨1, none, none, none, none, none, none, .null, none, none, none, none⟩,
             ⟨2, none, none, none, none, none, none, .null, none, none, none, none⟩]
            ["u1", "u2"])).getD ""))
      ++ ["END:VCARD"]).map pyLineFix) :=
  spec2proof_c7.2
    [⟨1, none, none, none, none, none, none, .null, none, none, none, none⟩,
     ⟨2, none, none, none, none, none, none, .null, none, none, none, none⟩]
    ["u1", "u2"] ⟨5, some "G"⟩ [2, 1] _ rfl rfl rfl (by decide) rfl

/-- Claim C8: commas inside NOTE, NICKNAME, TITLE, ORG and RELATED values
are rendered backslash-escaped, every line of the serialized vCard is free
of raw newline and carriage-return characters, and the escaped NOTE,
NICKNAME and TITLE lines appear in the output as rendered. -/
theorem spec2proof_c8 :
    (∀ s : String, commaSafe ((pyLineFix ("NOTE:" ++ escapeCommas s)).data) = true
      ∧ commaSafe ((pyLineFix ("NICKNAME:" ++ escapeCommas s)).data) = true
      ∧ commaSafe ((pyLineFix ("TITLE:" ++ escapeCommas s)).data) = true
      ∧ commaSafe ((pyLineFix ("ORG:" ++ escapeCommas s)).data) = true)
    ∧ (∀ s : String, '\n' ∉ (pyLineFix s).data ∧ '\r' ∉ (pyLineFix s).data)
    ∧ (∀ (labelTab keyTab : List (Int × String)) (uid : String) (p : PersonRow)
        (rows : List (MVRow × List MVEntryRow)) (ls : List String),
      serializeContact labelTab keyTab uid p rows = .ok ls →
      (∀ l ∈ ls, '\n' ∉ l.data ∧ '\r' ∉ l.data)
      ∧ (truthyO p.note = true →
          pyLineFix ("NOTE:" ++ escapeCommas (p.note.getD "")) ∈ ls)
      ∧ (truthyO p.nickname = true →
          pyLineFix ("NICKNAME:" ++ escapeCommas (p.nickname.getD "")) ∈ ls)
      ∧ (truthyO p.jobTitle = true →
          pyLineFix ("TITLE:" ++ escapeCommas (p.jobTitle.getD "")) ∈ ls))
    ∧ (∀ (vt topv : String) (r : MVRow) (mve : Option MVEntryRow) (l : String),
      r.property = 23 → l ∈ mveLines vt topv r mve →
      ∃ s, l = "RELATED;TYPE=" ++ vt ++ ";VALUE=text:" ++ escapeCommas s) := by
  refine ⟨?_, ?_, ?_, ?_⟩
  · intro s
    refine ⟨?_, ?_, ?_, ?_⟩ <;>
      exact commaSafe_field_line _ (by decide) (by decide) s
  · intro s
    exact ⟨lineFix_no_nl s.data, lineFix_no_cr s.data⟩
  · intro labelTab keyTab uid p rows ls h
    refine ⟨?_, ?_, ?_, ?_⟩
    · intro l hl
      obtain ⟨A, I, rfl, -, -⟩ := serializeContact_ok labelTab keyTab uid p rows ls h
      obtain ⟨x, -, rfl⟩ := List.mem_map.mp hl
      exact ⟨lineFix_no_nl x.data, lineFix_no_cr x.data⟩
    · intro hn
      exact serializeContact_scalar_mem labelTab keyTab uid p rows ls h _
        (note_line_mem uid p hn)
    · intro hn
      exact serializeContact_scalar_mem labelTab keyTab uid p rows ls h _
        (nickname_line_mem uid p hn)
    · intro hn
      exact serializeContact_scalar_mem labelTab keyTab uid p rows ls h _
        (title_line_mem uid p hn)
  · intro vt topv r mve l hp hl
    unfold mveLines at hl
    simp only [List.mem_append] at hl
    rcases hl with ((((hl | hl) | hl) | hl) | hl)
    · rw [if_neg (by simp [hp])] at hl
      exact absurd hl (by simp)
    · rw [if_neg (by simp [hp])] at hl
      exact absurd hl (by simp)
    · rcases hf : pyFloatOfSql (mveValue topv mve) with _ | q <;> rw [hf] at hl
      · exact absurd hl (by simp)
      · simp [hp] at hl
    · rw [if_neg (by simp [hp])] at hl
      exact absurd hl (by simp)
    · by_cases ht : pyTruthy (mveValue topv mve) = true
      · rw [if_pos (by simp [hp, ht])] at hl
        exact ⟨pyStrFmt (mveValue topv mve), List.mem_singleton.mp hl⟩
      · rw [if_neg (by simp [ht])] at hl
        exact absurd hl (by simp)

/-- Claim C8 witness: the conjuncts instantiated at the value a comma b with
an embedded newline, and at a contact carrying that value in its NOTE field. -/
theorem spec2proof_c8_witness :
    commaSafe ((pyLineFix ("NOTE:" ++ escapeCommas "a,b\nc")).data) = true
    ∧ '\n' ∉ (pyLineFix "x\ny").data
    ∧ (∀ l ∈ (["BEGIN:VCARD", "VERSION:4.0", "UID:urn:uuid:u", "FN:", "NOTE:a\\,b\\nc",
        "END:VCARD"] : List String), '\n' ∉ l.data ∧ '\r' ∉ l.data)
    ∧ pyLineFix ("NOTE:" ++ escapeCommas ((some "a,b\nc").getD "")) ∈
        (["BEGIN:VCARD", "VERSION:4.0", "UID:urn:uuid:u", "FN:", "NOTE:a\\,b\\nc",
          "END:VCARD"] : List String)
    ∧ (∃ s, "RELATED;TYPE=;VALUE=text:m\\,d" = "RELATED;TYPE=" ++ "" ++ ";VALUE=text:"
        ++ escapeCommas s) := by
  refine ⟨(spec2proof_c8.1 "a,b\nc").1, (spec2proof_c8.2.1 "x\ny").1, ?_, ?_, ?_⟩
  · exact (spec2proof_c8.2.2.1 [] [] "u"
      ⟨1, none, none, none, none, none, none, .null, none, none, none, some "a,b\nc"⟩
      [] _ rfl).1
  · exact (spec2proof_c8.2.2.1 [] [] "u"
      ⟨1, none, none, none, none, none, none, .null, none, none, none, some "a,b\nc"⟩
      [] _ rfl).2.1 rfl
  · exact spec2proof_c8.2.2.2 "" "m,d" ⟨10, 23, .null, .int 0, .text "m,d"⟩ none
      "RELATED;TYPE=;VALUE=text:m\\,d" rfl (by decide)

/-- Claim C10 (amended): a multi-value row with no sub-entry rows and a
falsy (NULL or empty) value column contributes no line at all — in
particular no TEL, EMAIL or URL line — and a contact consisting of exactly
one such row serializes to just the scalar head and END; when sub-entry
rows exist their values replace the value column, and a phone row with a
truthy text value contributes exactly its TEL line. -/
theorem spec2proof_c10 :
    (∀ (labelTab : List (Int × String)) (r : MVRow),
      pyTruthy r.value = false → rowLinesPure labelTab (r, []) = [])
    ∧ (∀ (labelTab keyTab : List (Int × String)) (uid : String) (p : PersonRow)
        (r : MVRow) (ls : List String),
      serializeContact labelTab keyTab uid p [(r, [])] = .ok ls →
      pyTruthy r.value = false →
      ls = (scalarLines uid p ++ ["END:VCARD"]).map pyLineFix)
    ∧ (∀ (labelTab : List (Int × String)) (r : MVRow) (vt s : String),
      r.property = 3 → r.value = Sql.text s → s ≠ "" →
      resolveLabel labelTab r.label = .ok vt →
      rowLinesPure labelTab (r, []) = ["TEL;TYPE=" ++ vt ++ ":" ++ s]) := by
  refine ⟨?_, ?_, ?_⟩
  · intro labelTab r hval
    unfold rowLinesPure
    cases hres : resolveLabel labelTab r.label with
    | error e => rfl
    | ok vt =>
      show (mvesOf []).flatMap (mveLines vt
        (if pyTruthy r.value = true then pyStrFmt r.value else "") r) = []
      rw [hval]
      show [none].flatMap (mveLines vt (if (false : Bool) = true then pyStrFmt r.value else "") r) = []
      rw [if_neg (by simp)]
      simp only [List.flatMap_cons, List.flatMap_nil, List.append_nil]
      unfold mveLines
      have hv0 : mveValue "" none = Sql.text "" := rfl
      rw [hv0]
      have ht : pyTruthy (Sql.text "") = false := rfl
      have hfl : pyFloatOfSql (Sql.text "") = none := rfl
      simp [ht, hfl]
  · intro labelTab keyTab uid p r ls h hval
    exact serializeContact_single_idle labelTab keyTab uid p r ls h hval
  · intro labelTab r vt s hp hval hs hres
    unfold rowLinesPure
    rw [hres]
    have htv : pyTruthy r.value = true := by
      rw [hval]
      simp [pyTruthy, hs]
    rw [htv]
    show (mvesOf []).flatMap (mveLines vt (pyStrFmt r.value) r) = _
    rw [hval]
    show [none].flatMap (mveLines vt s r) = _
    simp only [List.flatMap_cons, List.flatMap_nil, List.append_nil]
    unfold mveLines
    have hv0 : mveValue s none = Sql.text s := rfl
    rw [hv0]
    rcases hf : pyFloatOfSql (Sql.text s) with _ | q <;>
      simp [hf, hp, pyTruthy, pyStrFmt, hs]

/-- Claim C10 witness: the amended conjuncts instantiated at a NULL-valued
phone row without sub-entries and at a phone row with value 123. -/
theorem spec2proof_c10_witness :
    rowLinesPure [] ((⟨10, 3, .null, .int 0, .null⟩ : MVRow), []) = []
    ∧ (["BEGIN:VCARD", "VERSION:4.0", "UID:urn:uuid:u", "FN:", "END:VCARD"] : List String)
      = (scalarLines "u" ⟨1, none, none, none, none, none, none, .null, none, none, none, none⟩
          ++ ["END:VCARD"]).map pyLineFix
    ∧ rowLinesPure [] ((⟨10, 3, .null, .int 0, .text "123"⟩ : MVRow), [])
      = ["TEL;TYPE=" ++ "" ++ ":" ++ "123"] := by
  refine ⟨?_, ?_, ?_⟩
  · exact spec2proof_c10.1 [] ⟨10, 3, .null, .int 0, .null⟩ rfl
  · exact spec2proof_c10.2.1 [] [] "u"
      ⟨1, none, none, none, none, none, none, .null, none, none, none, none⟩
      ⟨10, 3, .null, .int 0, .null⟩ _ rfl rfl
  · exact spec2proof_c10.2.2 [] ⟨10, 3, .null, .int 0, .text "123"⟩ "" "123"
      rfl rfl (by decide) rfl
